import Mathlib

/-!
Verification development for the chessbot-arena repository.

The board in this code base is transposed relative to usual chess notation:
`row` indexes the horizontal axis (files), `col` indexes the vertical axis
(ranks).  White pieces start at columns 0 and 1 and white pawns advance in
the +col direction; black pieces start at columns 6 and 7 and black pawns
advance in the -col direction.  Castling is a king move of two squares in
the row direction along the back column.

Numbers: JavaScript numbers are modelled as `Int` where all arithmetic is
integral, and as `Rat` inside the Opus bot evaluation (which multiplies a
piece-square value by 0.1).  Squares are pairs of naturals; coordinate
differences are computed in `Int`.

Partiality: JavaScript array reads out of range yield `undefined` (modelled
as `none`); reads of a property of `undefined` throw.  The two places where
the source can throw during a move application (moving piece read from an
empty square and the en-passant removal read at a row outside the board)
are modelled as no-ops and are marked with comments; no claim below depends
on those branches.
-/

/-- Piece kinds, from PIECE_TYPES in gameState.js. -/
inductive PieceType where
  | king
  | queen
  | rook
  | bishop
  | knight
  | pawn
deriving DecidableEq, Repr

/-- Piece colors, from COLORS in gameState.js. -/
inductive Color where
  | white
  | black
deriving DecidableEq, Repr

/-- A piece on the board: a type and a color. -/
structure Piece where
  type : PieceType
  color : Color
deriving DecidableEq, Repr

/-- PIECE_VALUES from gameState.js (pawn 1 ... queen 9, king 0). -/
def PIECE_VALUES : PieceType → Int
  | PieceType.pawn => 1
  | PieceType.knight => 3
  | PieceType.bishop => 3
  | PieceType.rook => 5
  | PieceType.queen => 9
  | PieceType.king => 0

/-- The opposite color (written inline in the source as
`color === COLORS.WHITE ? COLORS.BLACK : COLORS.WHITE`). -/
def oppositeColor : Color → Color
  | Color.white => Color.black
  | Color.black => Color.white

/-- A board square; `row` is the horizontal axis, `col` the vertical one. -/
structure Square where
  row : Nat
  col : Nat
deriving DecidableEq, Repr

/-- The 8x8 board: a list of 8 rows, each a list of 8 optional pieces. -/
abbrev Board : Type := List (List (Option Piece))

/-- Read `board[r][c]`; out-of-range reads give `none` (JS `undefined`). -/
def boardGet (b : Board) (r c : Nat) : Option Piece :=
  match b.get? r with
  | none => none
  | some rowList =>
    match rowList.get? c with
    | none => none
    | some p => p

/-- Read with `Int` indices, for the few places the source indexes with a
possibly negative number. -/
def boardGetI (b : Board) (r c : Int) : Option Piece :=
  if r < 0 ∨ c < 0 then none
  else boardGet b r.toNat c.toNat

/-- Write `board[r][c] = v` (functional update; out of range is a no-op,
which is unreachable at all in-source call sites). -/
def boardSet (b : Board) (r c : Nat) (v : Option Piece) : Board :=
  b.modify (fun rowList => rowList.set c v) r

/-- Castling-rights record, from createGameState in gameState.js. -/
structure CastlingRights where
  whiteKingSide : Bool
  whiteQueenSide : Bool
  blackKingSide : Bool
  blackQueenSide : Bool
deriving DecidableEq, Repr

/-- Game status strings used by App.jsx. -/
inductive GameStatus where
  | playing
  | check
  | checkmate
  | stalemate
  | draw
deriving DecidableEq, Repr

/-- A bare move, the `{from, to}` shape produced by the bots.  The field
names `fromSq` and `toSq` stand for the source field names `from` and `to`
(`from` is a reserved word in Lean). -/
structure Move where
  fromSq : Square
  toSq : Square
deriving DecidableEq, Repr

/-- One entry of `moveHistory`.  App.jsx appends a rich record while the
bots append a bare `{from, to}` object; only the length of the history is
ever read, so both shapes are kept in one inductive. -/
inductive HistEntry where
  | appEntry (fromSq toSq : Square) (piece : Piece) (captured : Option Piece)
      (enPassantCaptured : Option Piece)
      (castlingRookMove : Option (Square × Square)) (promotion : Bool)
  | botEntry (mv : Move)
deriving DecidableEq, Repr

/-- Captured-piece lists per color. -/
structure CapturedPieces where
  white : List Piece
  black : List Piece
deriving DecidableEq, Repr

/-- The game state produced by createGameState in gameState.js.  The
`whitePlayer` / `blackPlayer` strings are UI-only and omitted. -/
structure GameState where
  board : Board
  currentTurn : Color
  capturedPieces : CapturedPieces
  gameStatus : GameStatus
  castlingRights : CastlingRights
  enPassantTarget : Option Square
  moveHistory : List HistEntry
  positionHistory : List String
deriving DecidableEq, Repr

/-- createInitialBoard from gameState.js: white pieces on columns 0 and 1,
black pieces on columns 6 and 7. -/
def createInitialBoard : Board :=
  let backRank : List PieceType :=
    [PieceType.rook, PieceType.knight, PieceType.bishop, PieceType.queen,
     PieceType.king, PieceType.bishop, PieceType.knight, PieceType.rook]
  (List.range 8).map (fun row =>
    (List.range 8).map (fun col =>
      if col = 0 then (backRank.get? row).map (fun ty => ⟨ty, Color.white⟩)
      else if col = 1 then some ⟨PieceType.pawn, Color.white⟩
      else if col = 6 then some ⟨PieceType.pawn, Color.black⟩
      else if col = 7 then (backRank.get? row).map (fun ty => ⟨ty, Color.black⟩)
      else none))

/-- createGameState from gameState.js (without the random player
selection, which is UI configuration). -/
def createGameState : GameState :=
  { board := createInitialBoard
    currentTurn := Color.white
    capturedPieces := ⟨[], []⟩
    gameStatus := GameStatus.playing
    castlingRights := ⟨true, true, true, true⟩
    enPassantTarget := none
    moveHistory := []
    positionHistory := [] }

namespace MoveValidation

/-!  Embedding of moveValidation.js. -/

/-- Intermediate squares of the `isPathClear` walk, excluding both
endpoints: step signs are the signs of the coordinate differences and the
number of steps is `max |rowDiff| |colDiff| - 1`.  For the aligned
from/to pairs at every in-source call site this is exactly the set of
squares the source while-loop visits. -/
def pathSquares (fromSq toSq : Square) : List (Int × Int) :=
  let rowStep : Int := if toSq.row > fromSq.row then 1 else if toSq.row < fromSq.row then -1 else 0
  let colStep : Int := if toSq.col > fromSq.col then 1 else if toSq.col < fromSq.col then -1 else 0
  let dr : Nat := ((toSq.row : Int) - (fromSq.row : Int)).natAbs
  let dc : Nat := ((toSq.col : Int) - (fromSq.col : Int)).natAbs
  (List.range (max dr dc - 1)).map
    (fun i => ((fromSq.row : Int) + rowStep * (i + 1), (fromSq.col : Int) + colStep * (i + 1)))

/-- isPathClear from moveValidation.js: no piece strictly between `fromSq`
and `toSq` along the (straight) line joining them. -/
def isPathClear (board : Board) (fromSq toSq : Square) : Bool :=
  (pathSquares fromSq toSq).all (fun sq => (boardGetI board sq.1 sq.2).isNone)

/-- isValidKnightMove from moveValidation.js. -/
def isValidKnightMove (rowDiff colDiff : Int) : Bool :=
  (rowDiff.natAbs = 2 ∧ colDiff.natAbs = 1) ∨ (rowDiff.natAbs = 1 ∧ colDiff.natAbs = 2)

/-- canPieceAttackSquare from moveValidation.js. -/
def canPieceAttackSquare (board : Board) (fromSq toSq : Square) (piece : Piece) : Bool :=
  let rowDiff : Int := (toSq.row : Int) - (fromSq.row : Int)
  let colDiff : Int := (toSq.col : Int) - (fromSq.col : Int)
  match piece.type with
  | PieceType.pawn =>
    let direction : Int := if piece.color = Color.white then 1 else -1
    colDiff = direction ∧ rowDiff.natAbs = 1
  | PieceType.rook => (rowDiff = 0 ∨ colDiff = 0) ∧ isPathClear board fromSq toSq
  | PieceType.bishop => rowDiff.natAbs = colDiff.natAbs ∧ isPathClear board fromSq toSq
  | PieceType.knight => isValidKnightMove rowDiff colDiff
  | PieceType.queen =>
    ((rowDiff = 0 ∨ colDiff = 0) ∨ rowDiff.natAbs = colDiff.natAbs) ∧
      isPathClear board fromSq toSq
  | PieceType.king => rowDiff.natAbs ≤ 1 ∧ colDiff.natAbs ≤ 1

/-- isSquareUnderAttack from moveValidation.js: some piece of
`attackingColor` pseudo-attacks `square`. -/
def isSquareUnderAttack (board : Board) (square : Square) (attackingColor : Color) : Bool :=
  (List.range 8).any (fun row =>
    (List.range 8).any (fun col =>
      match boardGet board row col with
      | some piece =>
        piece.color = attackingColor ∧
          canPieceAttackSquare board ⟨row, col⟩ square piece
      | none => false))

/-- isValidCastling from moveValidation.js.  The two loops (squares between
king and rook; attacked squares on the king path) are rendered as bounded
lists; the source loop steps by plus-or-minus one so the lists coincide
with the visited squares. -/
def isValidCastling (board : Board) (fromSq toSq : Square) (gs : GameState) : Bool :=
  match boardGet board fromSq.row fromSq.col with
  | none => false
  | some piece =>
    if piece.type ≠ PieceType.king then false
    else
      let kingStartCol : Nat := if piece.color = Color.white then 0 else 7
      let kingStartRow : Nat := 4
      if fromSq.col ≠ kingStartCol ∨ fromSq.row ≠ kingStartRow then false
      else if ((toSq.row : Int) - (fromSq.row : Int)).natAbs ≠ 2 ∨ toSq.col ≠ fromSq.col then false
      else
        let kingSide : Bool := toSq.row > fromSq.row
        let rookRow : Nat := if kingSide then 7 else 0
        match boardGet board rookRow kingStartCol with
        | none => false
        | some rookPiece =>
          if rookPiece.type ≠ PieceType.rook ∨ rookPiece.color ≠ piece.color then false
          else
            let flag : Bool :=
              match piece.color, kingSide with
              | Color.white, true => gs.castlingRights.whiteKingSide
              | Color.white, false => gs.castlingRights.whiteQueenSide
              | Color.black, true => gs.castlingRights.blackKingSide
              | Color.black, false => gs.castlingRights.blackQueenSide
            if !flag then false
            else
              let betweenRows : List Nat :=
                if kingSide then
                  (List.range (rookRow - fromSq.row - 1)).map (fun i => fromSq.row + 1 + i)
                else
                  (List.range (fromSq.row - rookRow - 1)).map (fun i => fromSq.row - 1 - i)
              if !(betweenRows.all (fun r => (boardGet board r kingStartCol).isNone)) then false
              else
                let opponentColor := oppositeColor piece.color
                if isSquareUnderAttack board fromSq opponentColor then false
                else
                  let stepRows : List Nat :=
                    if kingSide then [fromSq.row + 1, fromSq.row + 2]
                    else [fromSq.row - 1, fromSq.row - 2]
                  !(stepRows.any (fun r =>
                    isSquareUnderAttack board ⟨r, kingStartCol⟩ opponentColor))

/-- Copy the board and move the piece (the private makeMove helper of
moveValidation.js, used only for self-check simulation). -/
def makeMove (board : Board) (fromSq toSq : Square) : Board :=
  let b1 := boardSet board toSq.row toSq.col (boardGet board fromSq.row fromSq.col)
  boardSet b1 fromSq.row fromSq.col none

/-- isValidKingMove from moveValidation.js: one-square king moves are
simulated and checked against attack on the destination; a two-square row
move is castling. -/
def isValidKingMove (board : Board) (fromSq toSq : Square) (rowDiff colDiff : Int)
    (gs : GameState) : Bool :=
  if rowDiff.natAbs ≤ 1 ∧ colDiff.natAbs ≤ 1 then
    let testBoard := makeMove board fromSq toSq
    !(isSquareUnderAttack testBoard toSq (oppositeColor gs.currentTurn))
  else if rowDiff.natAbs = 2 ∧ colDiff = 0 then
    isValidCastling board fromSq toSq gs
  else false

/-- isValidPawnMove from moveValidation.js: pushes run along the column
axis, diagonal captures change the row by one, and an en-passant capture is
a diagonal move onto the current enPassantTarget. -/
def isValidPawnMove (board : Board) (fromSq toSq : Square) (rowDiff colDiff : Int)
    (color : Color) (gs : GameState) : Bool :=
  let direction : Int := if color = Color.white then 1 else -1
  let startCol : Nat := if color = Color.white then 1 else 6
  let toPiece := boardGet board toSq.row toSq.col
  if rowDiff = 0 then
    if toPiece.isSome then false
    else if colDiff = direction then true
    else if fromSq.col = startCol ∧ colDiff = 2 * direction then
      (boardGetI board fromSq.row ((fromSq.col : Int) + direction)).isNone
    else false
  else if rowDiff.natAbs = 1 ∧ colDiff = direction then
    if toPiece.isSome then true
    else
      match gs.enPassantTarget with
      | some target => target.row = toSq.row ∧ target.col = toSq.col
      | none => false
  else false

/-- isValidRookMove from moveValidation.js. -/
def isValidRookMove (board : Board) (fromSq toSq : Square) (rowDiff colDiff : Int) : Bool :=
  if rowDiff ≠ 0 ∧ colDiff ≠ 0 then false
  else isPathClear board fromSq toSq

/-- isValidBishopMove from moveValidation.js. -/
def isValidBishopMove (board : Board) (fromSq toSq : Square) (rowDiff colDiff : Int) : Bool :=
  if rowDiff.natAbs ≠ colDiff.natAbs then false
  else isPathClear board fromSq toSq

/-- isValidQueenMove from moveValidation.js. -/
def isValidQueenMove (board : Board) (fromSq toSq : Square) (rowDiff colDiff : Int) : Bool :=
  isValidRookMove board fromSq toSq rowDiff colDiff ∨
    isValidBishopMove board fromSq toSq rowDiff colDiff

/-- isValidMove from moveValidation.js: the per-piece pseudo-legality
check guarding every move application.  The source reads both squares
before the bounds test; the read is modelled by the total `boardGet`. -/
def isValidMove (board : Board) (fromSq toSq : Square) (gs : GameState) : Bool :=
  match boardGet board fromSq.row fromSq.col with
  | none => false
  | some fromPiece =>
    if fromPiece.color ≠ gs.currentTurn then false
    else
      let toPiece := boardGet board toSq.row toSq.col
      if (match toPiece with
          | some p => p.color == fromPiece.color
          | none => false) then false
      else if toSq.row > 7 ∨ toSq.col > 7 then false
      else
        let rowDiff : Int := (toSq.row : Int) - (fromSq.row : Int)
        let colDiff : Int := (toSq.col : Int) - (fromSq.col : Int)
        match fromPiece.type with
        | PieceType.pawn => isValidPawnMove board fromSq toSq rowDiff colDiff fromPiece.color gs
        | PieceType.rook => isValidRookMove board fromSq toSq rowDiff colDiff
        | PieceType.bishop => isValidBishopMove board fromSq toSq rowDiff colDiff
        | PieceType.knight => isValidKnightMove rowDiff colDiff
        | PieceType.queen => isValidQueenMove board fromSq toSq rowDiff colDiff
        | PieceType.king => isValidKingMove board fromSq toSq rowDiff colDiff gs

/-- findKing from moveValidation.js: first king of the color in row-major
scan order, if any. -/
def findKing (board : Board) (color : Color) : Option Square :=
  (List.range 8).findSome? (fun row =>
    (List.range 8).findSome? (fun col =>
      match boardGet board row col with
      | some piece =>
        if piece.type = PieceType.king ∧ piece.color = color then some ⟨row, col⟩ else none
      | none => none))

/-- isInCheck from moveValidation.js.  When the king is missing it
returns false rather than failing. -/
def isInCheck (board : Board) (color : Color) : Bool :=
  match findKing board color with
  | none => false
  | some king => isSquareUnderAttack board king (oppositeColor color)

/-- hasAnyLegalMove from moveValidation.js: some pseudo-legal move of
`color` whose simulated board leaves that color not in check. -/
def hasAnyLegalMove (board : Board) (color : Color) (gs : GameState) : Bool :=
  (List.range 8).any (fun row =>
    (List.range 8).any (fun col =>
      match boardGet board row col with
      | some piece =>
        piece.color = color ∧
          (List.range 8).any (fun toRow =>
            (List.range 8).any (fun toCol =>
              isValidMove board ⟨row, col⟩ ⟨toRow, toCol⟩ gs ∧
                !(isInCheck (makeMove board ⟨row, col⟩ ⟨toRow, toCol⟩) color)))
      | none => false))

/-- isCheckmate from moveValidation.js. -/
def isCheckmate (board : Board) (color : Color) (gs : GameState) : Bool :=
  if !(isInCheck board color) then false
  else !(hasAnyLegalMove board color gs)

/-- First character of the piece-type string, as used by
getBoardPositionString (`piece.type[0]`); note both `king` and `knight`
give the character k. -/
def typeChar : PieceType → Char
  | PieceType.king => 'k'
  | PieceType.queen => 'q'
  | PieceType.rook => 'r'
  | PieceType.bishop => 'b'
  | PieceType.knight => 'k'
  | PieceType.pawn => 'p'

/-- First character of the color string (`piece.color[0]`). -/
def colorChar : Color → Char
  | Color.white => 'w'
  | Color.black => 'b'

/-- getBoardPositionString from moveValidation.js: 2 characters per square
(type initial and color initial, or two dashes), then the turn initial and
four castling-rights characters.  The en-passant target is not encoded. -/
def getBoardPositionString (board : Board) (gs : GameState) : String :=
  let boardPart : String :=
    (List.range 8).foldl (fun acc row =>
      (List.range 8).foldl (fun (acc2 : String) col =>
        match boardGet board row col with
        | some piece => (acc2.push (typeChar piece.type)).push (colorChar piece.color)
        | none => (acc2.push '-').push '-') acc) ("" : String)
  let withTurn := boardPart.push (colorChar gs.currentTurn)
  let s1 := withTurn.push (if gs.castlingRights.whiteKingSide then 'K' else '-')
  let s2 := s1.push (if gs.castlingRights.whiteQueenSide then 'Q' else '-')
  let s3 := s2.push (if gs.castlingRights.blackKingSide then 'k' else '-')
  s3.push (if gs.castlingRights.blackQueenSide then 'q' else '-')

/-- isDrawByRepetition from moveValidation.js: false for histories shorter
than 3, else true when the last recorded position string occurs at least 3
times in the whole history (the source counts with an early exit at 3). -/
def isDrawByRepetition (gs : GameState) : Bool :=
  let ph := gs.positionHistory
  if ph.length < 3 then false
  else
    match ph.getLast? with
    | none => false
    | some current => 3 ≤ ph.count current

end MoveValidation

namespace App

/-!  Embedding of the move application in App.jsx. -/

/-- Push a captured piece onto the capturing side's list. -/
def pushCaptured (cp : CapturedPieces) (turn : Color) (p : Piece) : CapturedPieces :=
  match turn with
  | Color.white => { cp with white := cp.white ++ [p] }
  | Color.black => { cp with black := cp.black ++ [p] }

/-- First castling-rights mutation of executeMove: a king move loses both
rights of its color. -/
def clearRightsKingMove (movingPiece : Piece) (cr : CastlingRights) : CastlingRights :=
  if movingPiece.type = PieceType.king then
    if movingPiece.color = Color.white then
      { cr with whiteKingSide := false, whiteQueenSide := false }
    else
      { cr with blackKingSide := false, blackQueenSide := false }
  else cr

/-- Second castling-rights mutation of executeMove: a rook move from row
0 or 7 loses the corresponding right (the column is not inspected). -/
def clearRightsRookMove (movingPiece : Piece) (fromRow : Nat) (cr : CastlingRights) :
    CastlingRights :=
  if movingPiece.type = PieceType.rook then
    if movingPiece.color = Color.white then
      let a := if fromRow = 0 then { cr with whiteQueenSide := false } else cr
      if fromRow = 7 then { a with whiteKingSide := false } else a
    else
      let a := if fromRow = 0 then { cr with blackQueenSide := false } else cr
      if fromRow = 7 then { a with blackKingSide := false } else a
  else cr

/-- Third castling-rights mutation of executeMove: a rook captured on row
0 or 7 loses the corresponding right (again only the row is inspected). -/
def clearRightsRookCaptured (capturedPiece : Option Piece) (toRow : Nat)
    (cr : CastlingRights) : CastlingRights :=
  match capturedPiece with
  | some p =>
    if p.type = PieceType.rook then
      if p.color = Color.white then
        let a := if toRow = 0 then { cr with whiteQueenSide := false } else cr
        if toRow = 7 then { a with whiteKingSide := false } else a
      else
        let a := if toRow = 0 then { cr with blackQueenSide := false } else cr
        if toRow = 7 then { a with blackKingSide := false } else a
    else cr
  | none => cr

/-- executeMove from App.jsx: applies a move to the previous state and
returns the next state, including en-passant removal, castling rook
movement, auto-promotion to queen, captured-piece bookkeeping, en-passant
target and castling-rights updates, history appends and the game-status
computation.  Two source branches throw a TypeError and are modelled as
no-ops marked below; neither branch is exercised by any theorem in this
file except where explicitly stated. -/
def executeMove (prevState : GameState) (fromSq toSq : Square) : GameState :=
  match boardGet prevState.board fromSq.row fromSq.col with
  | none => prevState
  | some movingPiece =>
    let capturedPiece := boardGet prevState.board toSq.row toSq.col
    let epCondition : Bool :=
      (movingPiece.type == PieceType.pawn) &&
        (match prevState.enPassantTarget with
         | some target => (toSq.row == target.row) && (toSq.col == target.col)
         | none => false) &&
        capturedPiece.isNone
    let direction : Int := if movingPiece.color = Color.white then -1 else 1
    let epRow : Int := (toSq.row : Int) + direction
    let enPassantCapturedPiece : Option Piece :=
      if epCondition then boardGetI prevState.board epRow toSq.col else none
    let b1 : Board :=
      if epCondition then
        if 0 ≤ epRow ∧ epRow < 8 then boardSet prevState.board epRow.toNat toSq.col none
        else prevState.board
      else prevState.board
    let isCastle : Bool :=
      movingPiece.type = PieceType.king ∧ ((toSq.row : Int) - (fromSq.row : Int)).natAbs = 2
    let kingSide : Bool := toSq.row > fromSq.row
    let rookFromRow : Nat := if kingSide then 7 else 0
    let rookToRow : Nat := if kingSide then toSq.row - 1 else toSq.row + 1
    let rookCol : Nat := fromSq.col
    let castlingRookMove : Option (Square × Square) :=
      if isCastle then some (⟨rookFromRow, rookCol⟩, ⟨rookToRow, rookCol⟩) else none
    let b2 : Board :=
      if isCastle then
        boardSet (boardSet b1 rookToRow rookCol (boardGet b1 rookFromRow rookCol))
          rookFromRow rookCol none
      else b1
    let b3 : Board := boardSet (boardSet b2 toSq.row toSq.col (some movingPiece))
      fromSq.row fromSq.col none
    let promotionCol : Nat := if movingPiece.color = Color.white then 7 else 0
    let promoted : Bool := movingPiece.type = PieceType.pawn ∧ toSq.col = promotionCol
    let newBoard : Board :=
      if promoted then
        boardSet b3 toSq.row toSq.col (some ⟨PieceType.queen, movingPiece.color⟩)
      else b3
    let cp1 : CapturedPieces :=
      match capturedPiece with
      | some p => pushCaptured prevState.capturedPieces prevState.currentTurn p
      | none => prevState.capturedPieces
    let newCapturedPieces : CapturedPieces :=
      match enPassantCapturedPiece with
      | some p => pushCaptured cp1 prevState.currentTurn p
      | none => cp1
    let newEnPassantTarget : Option Square :=
      if movingPiece.type = PieceType.pawn ∧
          ((toSq.col : Int) - (fromSq.col : Int)).natAbs = 2 then
        some ⟨toSq.row, (fromSq.col + toSq.col) / 2⟩
      else none
    let newCastlingRights : CastlingRights :=
      clearRightsRookCaptured capturedPiece toSq.row
        (clearRightsRookMove movingPiece fromSq.row
          (clearRightsKingMove movingPiece prevState.castlingRights))
    let newTurn := oppositeColor prevState.currentTurn
    let histEntry : HistEntry :=
      HistEntry.appEntry fromSq toSq movingPiece capturedPiece enPassantCapturedPiece
        castlingRookMove promoted
    let gs0 : GameState :=
      { prevState with
          board := newBoard
          currentTurn := newTurn
          capturedPieces := newCapturedPieces
          enPassantTarget := newEnPassantTarget
          castlingRights := newCastlingRights
          moveHistory := prevState.moveHistory ++ [histEntry] }
    let positionString := MoveValidation.getBoardPositionString newBoard gs0
    let gs1 : GameState :=
      { gs0 with positionHistory := prevState.positionHistory ++ [positionString] }
    let inCheck := MoveValidation.isInCheck newBoard newTurn
    let hasLegalMoves := MoveValidation.hasAnyLegalMove newBoard newTurn gs1
    let newStatus : GameStatus :=
      if inCheck ∧ !hasLegalMoves then GameStatus.checkmate
      else if !inCheck ∧ !hasLegalMoves then GameStatus.stalemate
      else if MoveValidation.isDrawByRepetition gs1 then GameStatus.draw
      else if inCheck then GameStatus.check
      else GameStatus.playing
    { gs1 with gameStatus := newStatus }

/-- The apply boundary of App.jsx (handleMove for the human and the
worker-message handler for a bot): a move is applied only when isValidMove
accepts it; otherwise no new state is produced and the position stays
unmodified. -/
def handleMove (gs : GameState) (fromSq toSq : Square) : Option GameState :=
  if MoveValidation.isValidMove gs.board fromSq toSq gs then
    some (executeMove gs fromSq toSq)
  else none

end App

namespace Grok

/-!  Embedding of the grok-3-mini bot. -/

/-- JavaScript Infinity as used for the initial alpha-beta window; modelled
by an integer strictly larger than any score the evaluation can produce. -/
def jsInfinity : Int := 1000000000000

/-- PIECE_SQUARE_TABLES from grok-3-mini.js. -/
def PIECE_SQUARE_TABLES : PieceType → List (List Int)
  | PieceType.pawn =>
    [[0, 0, 0, 0, 0, 0, 0, 0],
     [50, 50, 50, 50, 50, 50, 50, 50],
     [10, 10, 20, 30, 30, 20, 10, 10],
     [5, 5, 10, 25, 25, 10, 5, 5],
     [0, 0, 0, 20, 20, 0, 0, 0],
     [5, -5, -10, 0, 0, -10, -5, 5],
     [5, 10, 10, -20, -20, 10, 10, 5],
     [0, 0, 0, 0, 0, 0, 0, 0]]
  | PieceType.knight =>
    [[-50, -40, -30, -30, -30, -30, -40, -50],
     [-40, -20, 0, 0, 0, 0, -20, -40],
     [-30, 0, 10, 15, 15, 10, 0, -30],
     [-30, 5, 15, 20, 20, 15, 5, -30],
     [-30, 0, 15, 20, 20, 15, 0, -30],
     [-30, 5, 10, 15, 15, 10, 5, -30],
     [-40, -20, 0, 5, 5, 0, -20, -40],
     [-50, -40, -30, -30, -30, -30, -40, -50]]
  | PieceType.bishop =>
    [[-20, -10, -10, -10, -10, -10, -10, -20],
     [-10, 0, 0, 0, 0, 0, 0, -10],
     [-10, 0, 5, 10, 10, 5, 0, -10],
     [-10, 5, 5, 10, 10, 5, 5, -10],
     [-10, 0, 10, 10, 10, 10, 0, -10],
     [-10, 10, 10, 10, 10, 10, 10, -10],
     [-10, 5, 0, 0, 0, 0, 5, -10],
     [-20, -10, -10, -10, -10, -10, -10, -20]]
  | PieceType.rook =>
    [[0, 0, 0, 0, 0, 0, 0, 0],
     [5, 10, 10, 10, 10, 10, 10, 5],
     [-5, 0, 0, 0, 0, 0, 0, -5],
     [-5, 0, 0, 0, 0, 0, 0, -5],
     [-5, 0, 0, 0, 0, 0, 0, -5],
     [-5, 0, 0, 0, 0, 0, 0, -5],
     [-5, 0, 0, 0, 0, 0, 0, -5],
     [0, 0, 0, 5, 5, 0, 0, 0]]
  | PieceType.queen =>
    [[-20, -10, -10, -5, -5, -10, -10, -20],
     [-10, 0, 0, 0, 0, 0, 0, -10],
     [-10, 0, 5, 5, 5, 5, 0, -10],
     [-5, 0, 5, 5, 5, 5, 0, -5],
     [0, 0, 5, 5, 5, 5, 0, -5],
     [-10, 5, 5, 5, 5, 5, 0, -10],
     [-10, 0, 5, 0, 0, 0, 0, -10],
     [-20, -10, -10, -5, -5, -10, -10, -20]]
  | PieceType.king =>
    [[-30, -40, -40, -50, -50, -40, -40, -30],
     [-30, -40, -40, -50, -50, -40, -40, -30],
     [-30, -40, -40, -50, -50, -40, -40, -30],
     [-30, -40, -40, -50, -50, -40, -40, -30],
     [-20, -30, -30, -40, -40, -30, -30, -20],
     [-10, -20, -20, -20, -20, -20, -20, -10],
     [20, 20, 0, 0, 0, 0, 20, 20],
     [20, 30, 10, 0, 0, 10, 30, 20]]

/-- Read an 8x8 table; all in-source accesses are in range. -/
def tableGet (t : List (List Int)) (r c : Nat) : Int :=
  match t.get? r with
  | none => 0
  | some rowList => (rowList.get? c).getD 0

/-- applyMoveToBoard from grok-3-mini.js: plain piece relocation. -/
def applyMoveToBoard (board : Board) (fromSq toSq : Square) : Board :=
  let b1 := boardSet board toSq.row toSq.col (boardGet board fromSq.row fromSq.col)
  boardSet b1 fromSq.row fromSq.col none

/-- getLegalMoves from grok-3-mini.js: every pseudo-legal move of `color`
whose simulated application does not leave `color` in check. -/
def getLegalMoves (board : Board) (color : Color) (gs : GameState) : List Move :=
  (List.range 8).flatMap (fun row =>
    (List.range 8).flatMap (fun col =>
      match boardGet board row col with
      | some piece =>
        if piece.color = color then
          (List.range 8).flatMap (fun toRow =>
            (List.range 8).filterMap (fun toCol =>
              if MoveValidation.isValidMove board ⟨row, col⟩ ⟨toRow, toCol⟩ gs then
                let testBoard := applyMoveToBoard board ⟨row, col⟩ ⟨toRow, toCol⟩
                if !(MoveValidation.isInCheck testBoard color) then
                  some ⟨⟨row, col⟩, ⟨toRow, toCol⟩⟩
                else none
              else none))
        else []
      | none => []))

/-- evaluateBoard from grok-3-mini.js: material times 100 plus the
piece-square value (mirrored by row for black), summed with sign by
color. -/
def evaluateBoard (board : Board) : Int :=
  (List.range 8).foldl (fun acc row =>
    (List.range 8).foldl (fun acc2 col =>
      match boardGet board row col with
      | some piece =>
        let base := PIECE_VALUES piece.type * 100
        let tableRow := if piece.color = Color.white then row else 7 - row
        let pieceValue := base + tableGet (PIECE_SQUARE_TABLES piece.type) tableRow col
        acc2 + (if piece.color = Color.white then pieceValue else -pieceValue)
      | none => acc2) acc) 0

/-- Result record of minimax in grok-3-mini.js. -/
structure MinimaxResult where
  score : Int
  move : Option Move
deriving DecidableEq, Repr

/-- State of the move loop inside minimax (bestEval, bestMove, the bound
being narrowed, and the break flag of the alpha or beta cutoff). -/
structure MinimaxLoopState where
  bestEval : Int
  bestMove : Move
  bound : Int
  broken : Bool

/-- minimax with alpha-beta pruning from grok-3-mini.js.  The recursion
passes a game state whose board and turn are updated by object spread,
leaving the castling rights and the en-passant target of the root state in
place, exactly as the source does. -/
def minimax (board : Board) (gs : GameState) (depth : Nat) (alpha beta : Int)
    (maximizingPlayer : Bool) (botColor : Color) : MinimaxResult :=
  match depth with
  | 0 =>
    let evaluation := evaluateBoard board
    ⟨if botColor = Color.white then evaluation else -evaluation, none⟩
  | d + 1 =>
    let currentColor := if maximizingPlayer then botColor else oppositeColor botColor
    let moves := getLegalMoves board currentColor gs
    match moves with
    | [] =>
      if MoveValidation.isInCheck board currentColor then
        ⟨if maximizingPlayer then -10000 else 10000, none⟩
      else ⟨0, none⟩
    | m0 :: _ =>
      if maximizingPlayer then
        let final := moves.foldl (fun (st : MinimaxLoopState) move =>
          if st.broken then st
          else
            let newBoard := applyMoveToBoard board move.fromSq move.toSq
            let newGameState :=
              { gs with board := newBoard, currentTurn := oppositeColor gs.currentTurn }
            let evaluation := minimax newBoard newGameState d st.bound beta false botColor
            let st1 :=
              if evaluation.score > st.bestEval then
                { st with bestEval := evaluation.score, bestMove := move }
              else st
            let newAlpha := max st1.bound evaluation.score
            { st1 with bound := newAlpha, broken := decide (beta ≤ newAlpha) })
          ⟨-jsInfinity, m0, alpha, false⟩
        ⟨final.bestEval, some final.bestMove⟩
      else
        let final := moves.foldl (fun (st : MinimaxLoopState) move =>
          if st.broken then st
          else
            let newBoard := applyMoveToBoard board move.fromSq move.toSq
            let newGameState :=
              { gs with board := newBoard, currentTurn := oppositeColor gs.currentTurn }
            let evaluation := minimax newBoard newGameState d alpha st.bound true botColor
            let st1 :=
              if evaluation.score < st.bestEval then
                { st with bestEval := evaluation.score, bestMove := move }
              else st
            let newBeta := min st1.bound evaluation.score
            { st1 with bound := newBeta, broken := decide (newBeta ≤ alpha) })
          ⟨jsInfinity, m0, beta, false⟩
        ⟨final.bestEval, some final.bestMove⟩

/-- The opening block of makeMove in grok-3-mini.js: in the first two
plies try one of the two book moves and return it when isValidMove
accepts it.  The `pick` argument models the `Math.floor(Math.random()*2)`
index into the two-element lists (false picks index 0, true index 1). -/
def openingMove (gs : GameState) (botColor : Color) (pick : Bool) : Option Move :=
  if gs.moveHistory.length < 2 then
    if botColor = Color.white ∧ gs.moveHistory.length = 0 then
      let move : Move := if pick then ⟨⟨1, 3⟩, ⟨3, 3⟩⟩ else ⟨⟨1, 4⟩, ⟨3, 4⟩⟩
      if MoveValidation.isValidMove gs.board move.fromSq move.toSq gs then some move
      else none
    else if botColor = Color.black ∧ gs.moveHistory.length = 1 then
      let move : Move := if pick then ⟨⟨6, 3⟩, ⟨4, 3⟩⟩ else ⟨⟨6, 4⟩, ⟨4, 4⟩⟩
      if MoveValidation.isValidMove gs.board move.fromSq move.toSq gs then some move
      else none
    else none
  else none

/-- makeMove from grok-3-mini.js: the opening block (whose early returns
are modelled by the Option above), then minimax at depth 3 or 4. -/
def makeMove (gs : GameState) (botColor : Color) (pick : Bool) : Option Move :=
  match openingMove gs botColor pick with
  | some move => some move
  | none =>
    let depth : Nat := if gs.moveHistory.length < 10 then 3 else 4
    (minimax gs.board gs depth (-jsInfinity) jsInfinity true botColor).move

end Grok

namespace Opus

/-!  Embedding of the claude-opus-4-20250514 bot.  The bot keeps three
module-level mutable tables (transposition table, killer moves, history
heuristic); they are threaded explicitly as a `SearchSt` value.  Calls to
`Date.now()` are modelled by a clock `Env.now` applied to a running call
counter, so results are quantified over every possible clock behavior. -/

/-- Search configuration constants from claude-opus-4-20250514.js. -/
def MAX_DEPTH : Nat := 4

/-- QUIESCENCE_DEPTH constant. -/
def QUIESCENCE_DEPTH : Nat := 3

/-- TIME_LIMIT constant (milliseconds). -/
def TIME_LIMIT : Nat := 1800

/-- INFINITY constant (a plain number in the source, not JS Infinity). -/
def INFINITY : Rat := 1000000

/-- MATE_SCORE constant. -/
def MATE_SCORE : Rat := 100000

/-- The clock: `now n` is the value of the n-th `Date.now()` call. -/
structure Env where
  now : Nat → Nat

/-- Transposition-table entry flags. -/
inductive TTType where
  | exact
  | lower
  | upper
deriving DecidableEq, Repr

/-- Transposition-table entry `{score, depth, type}`. -/
structure TTEntry where
  score : Rat
  depth : Nat
  ttype : TTType
deriving DecidableEq, Repr

/-- The three module-level mutable tables of the bot. -/
structure SearchSt where
  tt : List (String × TTEntry)
  killers : List (Option Move × Option Move)
  histTable : List (String × Int)

/-- The initial state of the module-level tables (empty Map, an array of
MAX_DEPTH pairs of nulls, an empty object). -/
def initialSearchSt : SearchSt :=
  ⟨[], [(none, none), (none, none), (none, none), (none, none)], []⟩

/-- Map lookup on the association list modelling a JS Map or object. -/
def assocGet {α : Type} (l : List (String × α)) (k : String) : Option α :=
  (l.find? (fun p => p.1 == k)).map (fun p => p.2)

/-- Map insertion replacing any previous binding of the key. -/
def assocSet {α : Type} (l : List (String × α)) (k : String) (v : α) : List (String × α) :=
  (k, v) :: l.filter (fun p => !(p.1 == k))

/-- CENTER_SQUARES from the source. -/
def CENTER_SQUARES : List Square :=
  [⟨3, 3⟩, ⟨3, 4⟩, ⟨4, 3⟩, ⟨4, 4⟩]

/-- EXTENDED_CENTER from the source. -/
def EXTENDED_CENTER : List Square :=
  [⟨2, 2⟩, ⟨2, 3⟩, ⟨2, 4⟩, ⟨2, 5⟩,
   ⟨3, 2⟩, ⟨3, 3⟩, ⟨3, 4⟩, ⟨3, 5⟩,
   ⟨4, 2⟩, ⟨4, 3⟩, ⟨4, 4⟩, ⟨4, 5⟩,
   ⟨5, 2⟩, ⟨5, 3⟩, ⟨5, 4⟩, ⟨5, 5⟩]

/-- PST pawn table for white. -/
def pstPawnWhite : List (List Int) :=
  [[0, 0, 0, 0, 0, 0, 0, 0],
   [50, 50, 50, 50, 50, 50, 50, 50],
   [10, 10, 20, 30, 30, 20, 10, 10],
   [5, 5, 10, 25, 25, 10, 5, 5],
   [0, 0, 0, 20, 20, 0, 0, 0],
   [5, -5, -10, 0, 0, -10, -5, 5],
   [5, 10, 10, -20, -20, 10, 10, 5],
   [0, 0, 0, 0, 0, 0, 0, 0]]

/-- PST pawn table for black. -/
def pstPawnBlack : List (List Int) :=
  [[0, 0, 0, 0, 0, 0, 0, 0],
   [5, 10, 10, -20, -20, 10, 10, 5],
   [5, -5, -10, 0, 0, -10, -5, 5],
   [0, 0, 0, 20, 20, 0, 0, 0],
   [5, 5, 10, 25, 25, 10, 5, 5],
   [10, 10, 20, 30, 30, 20, 10, 10],
   [50, 50, 50, 50, 50, 50, 50, 50],
   [0, 0, 0, 0, 0, 0, 0, 0]]

/-- PST knight table. -/
def pstKnight : List (List Int) :=
  [[-50, -40, -30, -30, -30, -30, -40, -50],
   [-40, -20, 0, 0, 0, 0, -20, -40],
   [-30, 0, 10, 15, 15, 10, 0, -30],
   [-30, 5, 15, 20, 20, 15, 5, -30],
   [-30, 0, 15, 20, 20, 15, 0, -30],
   [-30, 5, 10, 15, 15, 10, 5, -30],
   [-40, -20, 0, 5, 5, 0, -20, -40],
   [-50, -40, -30, -30, -30, -30, -40, -50]]

/-- PST bishop table. -/
def pstBishop : List (List Int) :=
  [[-20, -10, -10, -10, -10, -10, -10, -20],
   [-10, 0, 0, 0, 0, 0, 0, -10],
   [-10, 0, 5, 10, 10, 5, 0, -10],
   [-10, 5, 5, 10, 10, 5, 5, -10],
   [-10, 0, 10, 10, 10, 10, 0, -10],
   [-10, 10, 10, 10, 10, 10, 10, -10],
   [-10, 5, 0, 0, 0, 0, 5, -10],
   [-20, -10, -10, -10, -10, -10, -10, -20]]

/-- PST rook table. -/
def pstRook : List (List Int) :=
  [[0, 0, 0, 0, 0, 0, 0, 0],
   [5, 10, 10, 10, 10, 10, 10, 5],
   [-5, 0, 0, 0, 0, 0, 0, -5],
   [-5, 0, 0, 0, 0, 0, 0, -5],
   [-5, 0, 0, 0, 0, 0, 0, -5],
   [-5, 0, 0, 0, 0, 0, 0, -5],
   [-5, 0, 0, 0, 0, 0, 0, -5],
   [0, 0, 0, 5, 5, 0, 0, 0]]

/-- PST queen table. -/
def pstQueen : List (List Int) :=
  [[-20, -10, -10, -5, -5, -10, -10, -20],
   [-10, 0, 0, 0, 0, 0, 0, -10],
   [-10, 0, 5, 5, 5, 5, 0, -10],
   [-5, 0, 5, 5, 5, 5, 0, -5],
   [0, 0, 5, 5, 5, 5, 0, -5],
   [-10, 5, 5, 5, 5, 5, 0, -10],
   [-10, 0, 5, 0, 0, 0, 0, -10],
   [-20, -10, -10, -5, -5, -10, -10, -20]]

/-- PST king middlegame table. -/
def pstKingMiddlegame : List (List Int) :=
  [[-30, -40, -40, -50, -50, -40, -40, -30],
   [-30, -40, -40, -50, -50, -40, -40, -30],
   [-30, -40, -40, -50, -50, -40, -40, -30],
   [-30, -40, -40, -50, -50, -40, -40, -30],
   [-20, -30, -30, -40, -40, -30, -30, -20],
   [-10, -20, -20, -20, -20, -20, -20, -10],
   [20, 20, 0, 0, 0, 0, 20, 20],
   [20, 30, 10, 0, 0, 10, 30, 20]]

/-- PST king endgame table. -/
def pstKingEndgame : List (List Int) :=
  [[-50, -40, -30, -20, -20, -30, -40, -50],
   [-30, -20, -10, 0, 0, -10, -20, -30],
   [-30, -10, 20, 30, 30, 20, -10, -30],
   [-30, -10, 30, 40, 40, 30, -10, -30],
   [-30, -10, 30, 40, 40, 30, -10, -30],
   [-30, -10, 20, 30, 30, 20, -10, -30],
   [-30, -30, 0, 0, 0, 0, -30, -30],
   [-50, -30, -30, -30, -30, -30, -30, -50]]

/-- isValidSquare from the source. -/
def isValidSquare (row col : Int) : Bool :=
  0 ≤ row ∧ row < 8 ∧ 0 ≤ col ∧ col < 8

/-- isPathClear of the bot; the body is identical to the one in
moveValidation.js, so the same embedding is reused. -/
def isPathClear : Board → Square → Square → Bool :=
  MoveValidation.isPathClear

/-- canAttackSquare from the source (the bot re-implements the attack
rules of moveValidation.js verbatim). -/
def canAttackSquare (board : Board) (fromSq toSq : Square) (piece : Piece) : Bool :=
  let rowDiff : Int := (toSq.row : Int) - (fromSq.row : Int)
  let colDiff : Int := (toSq.col : Int) - (fromSq.col : Int)
  match piece.type with
  | PieceType.pawn =>
    let direction : Int := if piece.color = Color.white then 1 else -1
    rowDiff.natAbs = 1 ∧ colDiff = direction
  | PieceType.knight =>
    (rowDiff.natAbs = 2 ∧ colDiff.natAbs = 1) ∨ (rowDiff.natAbs = 1 ∧ colDiff.natAbs = 2)
  | PieceType.bishop => rowDiff.natAbs = colDiff.natAbs ∧ isPathClear board fromSq toSq
  | PieceType.rook => (rowDiff = 0 ∨ colDiff = 0) ∧ isPathClear board fromSq toSq
  | PieceType.queen =>
    ((rowDiff = 0 ∨ colDiff = 0) ∨ rowDiff.natAbs = colDiff.natAbs) ∧
      isPathClear board fromSq toSq
  | PieceType.king => rowDiff.natAbs ≤ 1 ∧ colDiff.natAbs ≤ 1

/-- makeTestMove from the source. -/
def makeTestMove (board : Board) (fromSq toSq : Square) : Board :=
  let b1 := boardSet board toSq.row toSq.col (boardGet board fromSq.row fromSq.col)
  boardSet b1 fromSq.row fromSq.col none

/-- generateLegalMoves from the source: pseudo-legal moves filtered by a
simulation that must not leave the moving color in check. -/
def generateLegalMoves (gs : GameState) (color : Color) : List Move :=
  (List.range 8).flatMap (fun row =>
    (List.range 8).flatMap (fun col =>
      match boardGet gs.board row col with
      | some piece =>
        if piece.color = color then
          (List.range 8).flatMap (fun toRow =>
            (List.range 8).filterMap (fun toCol =>
              if MoveValidation.isValidMove gs.board ⟨row, col⟩ ⟨toRow, toCol⟩ gs then
                let testBoard := makeTestMove gs.board ⟨row, col⟩ ⟨toRow, toCol⟩
                if !(MoveValidation.isInCheck testBoard color) then
                  some ⟨⟨row, col⟩, ⟨toRow, toCol⟩⟩
                else none
              else none))
        else []
      | none => []))

/-- applyMove from the source: the returned object carries only board,
flipped turn, the unchanged castling rights, a null en-passant target and
the extended move history; the remaining record fields are never read
after an applyMove, and are filled with inert values. -/
def applyMove (gs : GameState) (move : Move) : GameState :=
  { board := makeTestMove gs.board move.fromSq move.toSq
    currentTurn := oppositeColor gs.currentTurn
    capturedPieces := ⟨[], []⟩
    gameStatus := gs.gameStatus
    castlingRights := gs.castlingRights
    enPassantTarget := none
    moveHistory := gs.moveHistory ++ [HistEntry.botEntry move]
    positionHistory := [] }

/-- isCheckmate from the source (side to move is in check and has no legal
move). -/
def isCheckmate (gs : GameState) : Bool :=
  let color := gs.currentTurn
  if !(MoveValidation.isInCheck gs.board color) then false
  else !(MoveValidation.hasAnyLegalMove gs.board color gs)

/-- isInsufficientMaterial from the source. -/
def isInsufficientMaterial (board : Board) : Bool :=
  let pieces : List Piece :=
    (List.range 8).flatMap (fun row =>
      (List.range 8).filterMap (fun col =>
        match boardGet board row col with
        | some piece => if piece.type ≠ PieceType.king then some piece else none
        | none => none))
  match pieces with
  | [] => true
  | [p] => p.type = PieceType.bishop ∨ p.type = PieceType.knight
  | _ => false

/-- isDraw from the source: stalemate or insufficient material (repetition
and the fifty-move rule are a TODO in the source). -/
def isDraw (gs : GameState) : Bool :=
  if !(MoveValidation.isInCheck gs.board gs.currentTurn) ∧
      !(MoveValidation.hasAnyLegalMove gs.board gs.currentTurn gs) then true
  else isInsufficientMaterial gs.board

/-- getPieceSquareValue from the source. -/
def getPieceSquareValue (piece : Piece) (row col : Nat) (isEndgame : Bool) : Int :=
  match piece.type with
  | PieceType.pawn =>
    Grok.tableGet (if piece.color = Color.white then pstPawnWhite else pstPawnBlack) row col
  | PieceType.king =>
    Grok.tableGet (if isEndgame then pstKingEndgame else pstKingMiddlegame) row col
  | PieceType.knight => Grok.tableGet pstKnight row col
  | PieceType.bishop => Grok.tableGet pstBishop row col
  | PieceType.rook => Grok.tableGet pstRook row col
  | PieceType.queen => Grok.tableGet pstQueen row col

/-- evaluateMaterial from the source: material plus one tenth of the
piece-square value, with the endgame switch read from the running count of
pieces seen so far in the scan. -/
def evaluateMaterial (board : Board) : Rat :=
  let final :=
    (List.range 8).foldl (fun (acc : Rat × Nat) row =>
      (List.range 8).foldl (fun (acc2 : Rat × Nat) col =>
        match boardGet board row col with
        | some piece =>
          let totalPieces := acc2.2 + 1
          let pieceValue : Rat := (PIECE_VALUES piece.type : Int)
          let posValue : Rat :=
            (getPieceSquareValue piece row col (decide (totalPieces < 16)) : Int)
          let totalValue : Rat := pieceValue + posValue * (1 / 10)
          (acc2.1 + (if piece.color = Color.white then totalValue else -totalValue),
           totalPieces)
        | none => acc2) acc) ((0 : Rat), (0 : Nat))
  final.1

/-- findKings from the source: unlike findKing in moveValidation.js this
keeps the last king found in scan order when a color has several. -/
def findKings (board : Board) : (Option Square) × (Option Square) :=
  (List.range 8).foldl (fun acc row =>
    (List.range 8).foldl (fun (acc2 : (Option Square) × (Option Square)) col =>
      match boardGet board row col with
      | some piece =>
        if piece.type = PieceType.king then
          if piece.color = Color.white then (some ⟨row, col⟩, acc2.2)
          else (acc2.1, some ⟨row, col⟩)
        else acc2
      | none => acc2) acc) (none, none)

/-- evaluatePawnShield from the source. -/
def evaluatePawnShield (board : Board) (kingPos : Square) (color : Color) : Int :=
  let direction : Int := if color = Color.white then 1 else -1
  ([-1, 0, 1] : List Int).foldl (fun shield dRow =>
    let row : Int := (kingPos.row : Int) + dRow
    let col : Int := (kingPos.col : Int) + direction
    if isValidSquare row col then
      match boardGetI board row col with
      | some piece =>
        if piece.type = PieceType.pawn ∧ piece.color = color then shield + 1 else shield
      | none => shield
    else shield) 0

/-- The eight ray directions used for king exposure. -/
def kingExposureDirections : List (Int × Int) :=
  [(-1, -1), (-1, 0), (-1, 1), (0, -1), (0, 1), (1, -1), (1, 0), (1, 1)]

/-- countKingExposure from the source: walk each ray and add a bonus when
the first occupied square holds an enemy slider aimed along the ray. -/
def countKingExposure (board : Board) (kingPos : Square) (color : Color) : Int :=
  kingExposureDirections.foldl (fun exposure dir =>
    let contrib :=
      (List.range 7).foldl (fun (st : Bool × Int) i =>
        if st.1 then st
        else
          let distance : Int := (i : Int) + 1
          let row := (kingPos.row : Int) + dir.1 * distance
          let col := (kingPos.col : Int) + dir.2 * distance
          if !(isValidSquare row col) then (true, st.2)
          else
            match boardGetI board row col with
            | some piece =>
              if piece.color ≠ color ∧
                  (piece.type = PieceType.queen ∨
                    (dir.1.natAbs = dir.2.natAbs ∧ piece.type = PieceType.bishop) ∨
                    (dir.1 * dir.2 = (0 : Int) ∧ piece.type = PieceType.rook)) then
                (true, st.2 + (4 - min distance 3))
              else (true, st.2)
            | none => (false, st.2)) (false, 0)
    exposure + contrib.2) 0

/-- countAttackingPieces from the source: over the 3x3 zone around the
king, count every enemy piece that can attack each zone square. -/
def countAttackingPieces (board : Board) (kingPos : Square) (color : Color) : Int :=
  let enemyColor := oppositeColor color
  (([-1, 0, 1] : List Int).flatMap (fun dr =>
    ([-1, 0, 1] : List Int).filterMap (fun dc =>
      if dr = 0 ∧ dc = 0 then none
      else some (dr, dc)))).foldl (fun attackers d =>
    let row := (kingPos.row : Int) + d.1
    let col := (kingPos.col : Int) + d.2
    if isValidSquare row col then
      attackers +
        (List.range 8).foldl (fun acc r =>
          (List.range 8).foldl (fun acc2 c =>
            match boardGet board r c with
            | some piece =>
              if piece.color = enemyColor ∧
                  canAttackSquare board ⟨r, c⟩ ⟨row.toNat, col.toNat⟩ piece then
                acc2 + 1
              else acc2
            | none => acc2) acc) 0
    else attackers) 0

/-- evaluateKingSafety from the source. -/
def evaluateKingSafety (gs : GameState) : Int :=
  let board := gs.board
  let kings := findKings board
  ([Color.white, Color.black] : List Color).foldl (fun score color =>
    let kingOpt := if color = Color.white then kings.1 else kings.2
    match kingOpt with
    | none => score
    | some king =>
      let safety : Int :=
        evaluatePawnShield board king color * 10 -
          countKingExposure board king color * 5 -
          countAttackingPieces board king color * 15 +
          (if (match color with
               | Color.white =>
                 gs.castlingRights.whiteKingSide || gs.castlingRights.whiteQueenSide
               | Color.black =>
                 gs.castlingRights.blackKingSide || gs.castlingRights.blackQueenSide) then
            10
           else 0)
      score + (if color = Color.white then safety else -safety)) 0

/-- isSquareControlledBy from the source. -/
def isSquareControlledBy (board : Board) (square : Square) (color : Color) : Bool :=
  (List.range 8).any (fun row =>
    (List.range 8).any (fun col =>
      match boardGet board row col with
      | some piece =>
        piece.color = color ∧ canAttackSquare board ⟨row, col⟩ square piece
      | none => false))

/-- evaluateCenterControl from the source. -/
def evaluateCenterControl (board : Board) : Int :=
  let occupation :=
    CENTER_SQUARES.foldl (fun score square =>
      match boardGet board square.row square.col with
      | some piece =>
        let value : Int := if piece.type = PieceType.pawn then 15 else 10
        score + (if piece.color = Color.white then value else -value)
      | none => score) 0
  EXTENDED_CENTER.foldl (fun score square =>
    let whiteControl := isSquareControlledBy board square Color.white
    let blackControl := isSquareControlledBy board square Color.black
    if whiteControl ∧ !blackControl then score + 3
    else if blackControl ∧ !whiteControl then score - 3
    else score) occupation

/-- countPieceMobility from the source: destinations accepted by
isValidMove (which only moves pieces of the side to move). -/
def countPieceMobility (gs : GameState) (fromSq : Square) : Int :=
  (List.range 8).foldl (fun count row =>
    (List.range 8).foldl (fun count2 col =>
      if MoveValidation.isValidMove gs.board fromSq ⟨row, col⟩ gs then count2 + 1
      else count2) count) 0

/-- File status for rook bonuses. -/
inductive FileStatus where
  | openFile
  | semiOpen
  | closed
deriving DecidableEq, Repr

/-- evaluateFile from the source (the `file` is a row of the transposed
board; white pawns are counted as own pawns for either rook). -/
def evaluateFile (board : Board) (file : Nat) : FileStatus :=
  let counts :=
    (List.range 8).foldl (fun (acc : Nat × Nat) col =>
      match boardGet board file col with
      | some piece =>
        if piece.type = PieceType.pawn then
          if piece.color = Color.white then (acc.1 + 1, acc.2) else (acc.1, acc.2 + 1)
        else acc
      | none => acc) (0, 0)
  if counts.1 = 0 ∧ counts.2 = 0 then FileStatus.openFile
  else if counts.1 = 0 ∨ counts.2 = 0 then FileStatus.semiOpen
  else FileStatus.closed

/-- evaluatePieceActivity from the source: mobility, an early development
bonus for minor pieces off the back column, and rook bonuses on open or
semi-open files. -/
def evaluatePieceActivity (gs : GameState) : Int :=
  let board := gs.board
  (List.range 8).foldl (fun score row =>
    (List.range 8).foldl (fun score2 col =>
      match boardGet board row col with
      | some piece =>
        let mobility := countPieceMobility gs ⟨row, col⟩
        let devBonus : Int :=
          if gs.moveHistory.length < 20 ∧
              (piece.type = PieceType.knight ∨ piece.type = PieceType.bishop) then
            let startCol : Nat := if piece.color = Color.white then 0 else 7
            if col ≠ startCol then 10 else 0
          else 0
        let rookBonus : Int :=
          if piece.type = PieceType.rook then
            match evaluateFile board row with
            | FileStatus.openFile => 15
            | FileStatus.semiOpen => 8
            | FileStatus.closed => 0
          else 0
        let pieceScore := mobility + devBonus + rookBonus
        score2 + (if piece.color = Color.white then pieceScore else -pieceScore)
      | none => score2) score) 0

/-- isPassedPawn from the source: no enemy pawn ahead on the same or an
adjacent row. -/
def isPassedPawn (board : Board) (row col : Nat) (color : Color) : Bool :=
  let colsAhead : List Nat :=
    if color = Color.white then (List.range (7 - col)).map (fun i => col + 1 + i)
    else (List.range col).map (fun i => col - 1 - i)
  !(colsAhead.any (fun c =>
    (([-1, 0, 1] : List Int).any (fun dr =>
      let r := (row : Int) + dr
      if isValidSquare r (c : Int) then
        match boardGetI board r (c : Int) with
        | some piece => piece.type = PieceType.pawn ∧ piece.color ≠ color
        | none => false
      else false))))

/-- isIsolatedPawn from the source: no friendly pawn anywhere on an
adjacent row. -/
def isIsolatedPawn (board : Board) (row _col : Nat) (color : Color) : Bool :=
  !((([-1, 1] : List Int).any (fun dr =>
    let r := (row : Int) + dr
    if 0 ≤ r ∧ r < 8 then
      (List.range 8).any (fun c =>
        match boardGetI board r (c : Int) with
        | some piece => piece.type = PieceType.pawn ∧ piece.color = color
        | none => false)
    else false)))

/-- isDoubledPawn from the source: another friendly pawn on the same row. -/
def isDoubledPawn (board : Board) (row col : Nat) (color : Color) : Bool :=
  (List.range 8).any (fun c =>
    if c ≠ col then
      match boardGet board row c with
      | some piece => piece.type = PieceType.pawn ∧ piece.color = color
      | none => false
    else false)

/-- isBackwardPawn from the source. -/
def isBackwardPawn (board : Board) (row col : Nat) (color : Color) : Bool :=
  let direction : Int := if color = Color.white then -1 else 1
  let advanceCol : Int := (col : Int) + (if color = Color.white then 1 else -1)
  if advanceCol < 0 ∨ advanceCol > 7 ∨ (boardGetI board (row : Int) advanceCol).isSome then
    false
  else
    !((([-1, 1] : List Int).any (fun dr =>
      let r := (row : Int) + dr
      let c := (col : Int) + direction
      if isValidSquare r c then
        match boardGetI board r c with
        | some piece => piece.type = PieceType.pawn ∧ piece.color = color
        | none => false
      else false)))

/-- hasConnectedPawn from the source. -/
def hasConnectedPawn (board : Board) (row col : Nat) (color : Color) : Bool :=
  ([-1, 1] : List Int).any (fun dr =>
    ([-1, 0, 1] : List Int).any (fun dc =>
      if dc = 0 then false
      else
        let r := (row : Int) + dr
        let c := (col : Int) + dc
        if isValidSquare r c then
          match boardGetI board r c with
          | some piece => piece.type = PieceType.pawn ∧ piece.color = color
          | none => false
        else false))

/-- evaluatePawnStructure from the source. -/
def evaluatePawnStructure (board : Board) : Int :=
  (List.range 8).foldl (fun score row =>
    (List.range 8).foldl (fun score2 col =>
      match boardGet board row col with
      | some piece =>
        if piece.type = PieceType.pawn then
          let advancement : Int :=
            if piece.color = Color.white then (col : Int) else 7 - (col : Int)
          let passedBonus : Int :=
            if isPassedPawn board row col piece.color then
              20 + advancement * advancement * 5
            else 0
          let isolatedPenalty : Int := if isIsolatedPawn board row col piece.color then -15 else 0
          let doubledPenalty : Int := if isDoubledPawn board row col piece.color then -10 else 0
          let backwardPenalty : Int := if isBackwardPawn board row col piece.color then -8 else 0
          let connectedBonus : Int := if hasConnectedPawn board row col piece.color then 7 else 0
          let pawnScore :=
            passedBonus + isolatedPenalty + doubledPenalty + backwardPenalty + connectedBonus
          score2 + (if piece.color = Color.white then pawnScore else -pawnScore)
        else score2
      | none => score2) score) 0

/-- countForks from the source: whether the attacked enemy non-pawn pieces
include two whose top values exceed the attacker value plus two. -/
def countForks (board : Board) (pos : Square) (piece : Piece) : Int :=
  let enemyColor := oppositeColor piece.color
  let attacks : List Int :=
    (List.range 8).flatMap (fun row =>
      (List.range 8).filterMap (fun col =>
        match boardGet board row col with
        | some target =>
          if target.color = enemyColor ∧ target.type ≠ PieceType.pawn ∧
              canAttackSquare board pos ⟨row, col⟩ piece then
            some (PIECE_VALUES target.type)
          else none
        | none => none))
  if 2 ≤ attacks.length then
    let sorted := attacks.mergeSort (fun a b => decide (b ≤ a))
    match sorted with
    | a :: b :: _ => if PIECE_VALUES piece.type + 2 < a + b then 1 else 0
    | _ => 0
  else 0

/-- getSlideDirections from the source. -/
def getSlideDirections : PieceType → List (Int × Int)
  | PieceType.bishop => [(1, 1), (1, -1), (-1, 1), (-1, -1)]
  | PieceType.rook => [(0, 1), (0, -1), (1, 0), (-1, 0)]
  | PieceType.queen => [(0, 1), (0, -1), (1, 0), (-1, 0), (1, 1), (1, -1), (-1, 1), (-1, -1)]
  | _ => []

/-- The ray scan of countPinsAndSkewers: collect enemy pieces along the
direction (looking through the first one), stopping at an own piece, at
the second enemy piece or at the board edge. -/
def rayEnemies (board : Board) (pos : Square) (piece : Piece) (dir : Int × Int) : List Piece :=
  let final :=
    (List.range 7).foldl (fun (st : Bool × List Piece) i =>
      if st.1 then st
      else
        let step : Int := (i : Int) + 1
        let r := (pos.row : Int) + dir.1 * step
        let c := (pos.col : Int) + dir.2 * step
        if !(isValidSquare r c) then (true, st.2)
        else
          match boardGetI board r c with
          | some target =>
            if target.color ≠ piece.color then
              let ray := st.2 ++ [target]
              (decide (2 ≤ ray.length), ray)
            else (true, st.2)
          | none => st) (false, [])
  final.2

/-- countPinsAndSkewers from the source: a ray holding exactly two enemy
pieces of different values counts once (a pin when the nearer one is
cheaper, a skewer when it is dearer). -/
def countPinsAndSkewers (board : Board) (pos : Square) (piece : Piece) : Int :=
  (getSlideDirections piece.type).foldl (fun count dir =>
    match rayEnemies board pos piece dir with
    | [p1, p2] =>
      if PIECE_VALUES p1.type < PIECE_VALUES p2.type then count + 1
      else if PIECE_VALUES p2.type < PIECE_VALUES p1.type then count + 1
      else count
    | _ => count) 0

/-- evaluateTactics from the source. -/
def evaluateTactics (gs : GameState) : Int :=
  let board := gs.board
  (List.range 8).foldl (fun score row =>
    (List.range 8).foldl (fun score2 col =>
      match boardGet board row col with
      | some piece =>
        let forkPart : Int :=
          if piece.type = PieceType.knight ∨ piece.type = PieceType.pawn then
            let forks := countForks board ⟨row, col⟩ piece
            if piece.color = Color.white then forks * 25 else -(forks * 25)
          else 0
        let pinPart : Int :=
          if piece.type = PieceType.bishop ∨ piece.type = PieceType.rook ∨
              piece.type = PieceType.queen then
            let pins := countPinsAndSkewers board ⟨row, col⟩ piece
            if piece.color = Color.white then pins * 30 else -(pins * 30)
          else 0
        score2 + forkPart + pinPart
      | none => score2) score) 0

/-- isKnightOutpost from the source. -/
def isKnightOutpost (board : Board) (pos : Square) (color : Color) : Bool :=
  let enemyColor := oppositeColor color
  let advanceDir : Int := if color = Color.white then 1 else -1
  let inEnemyTerritory : Bool := if color = Color.white then 4 ≤ pos.col else pos.col ≤ 3
  if !inEnemyTerritory then false
  else
    let pawnProtected :=
      ([-1, 1] : List Int).any (fun dr =>
        let r := (pos.row : Int) + dr
        let c := (pos.col : Int) - advanceDir
        if isValidSquare r c then
          match boardGetI board r c with
          | some piece => piece.type = PieceType.pawn ∧ piece.color = color
          | none => false
        else false)
    if !pawnProtected then false
    else
      !((([-1, 1] : List Int).any (fun dr =>
        let r := (pos.row : Int) + dr
        let c := (pos.col : Int) + advanceDir
        if isValidSquare r c then
          match boardGetI board r c with
          | some piece => piece.type = PieceType.pawn ∧ piece.color = enemyColor
          | none => false
        else false)))

/-- evaluateStrategy from the source: bishop pair and knight outposts. -/
def evaluateStrategy (gs : GameState) : Int :=
  let board := gs.board
  let bishops :=
    (List.range 8).foldl (fun (acc : Nat × Nat) row =>
      (List.range 8).foldl (fun (acc2 : Nat × Nat) col =>
        match boardGet board row col with
        | some piece =>
          if piece.type = PieceType.bishop then
            if piece.color = Color.white then (acc2.1 + 1, acc2.2) else (acc2.1, acc2.2 + 1)
          else acc2
        | none => acc2) acc) (0, 0)
  let pairScore : Int :=
    (if 2 ≤ bishops.1 then 25 else 0) - (if 2 ≤ bishops.2 then 25 else 0)
  (List.range 8).foldl (fun score row =>
    (List.range 8).foldl (fun score2 col =>
      match boardGet board row col with
      | some piece =>
        if piece.type = PieceType.knight ∧ isKnightOutpost board ⟨row, col⟩ piece.color then
          score2 + (if piece.color = Color.white then 20 else -20)
        else score2
      | none => score2) score) pairScore

/-- evaluate from claude-opus-4-20250514.js: terminal results first, then
the weighted sum of the eight heuristic components, negated for a black
perspective. -/
def evaluate (gs : GameState) (botColor : Color) : Rat :=
  if isCheckmate gs then
    if gs.currentTurn = botColor then -MATE_SCORE else MATE_SCORE
  else if isDraw gs then 0
  else
    let score : Rat :=
      evaluateMaterial gs.board * 1000 +
        (evaluateKingSafety gs : Int) * 500 +
        (evaluateCenterControl gs.board : Int) * 300 +
        (evaluatePieceActivity gs : Int) * 200 +
        (evaluatePawnStructure gs.board : Int) * 150 +
        (evaluateTactics gs : Int) * 400 +
        (evaluateStrategy gs : Int) * 100
    if botColor = Color.white then score else -score

/-- movesEqual from the source (false when either argument is null). -/
def movesEqual (m1 m2 : Option Move) : Bool :=
  match m1, m2 with
  | some a, some b => a == b
  | _, _ => false

/-- The history-table key string for a move. -/
def histKey (move : Move) : String :=
  toString move.fromSq.row ++ "," ++ toString move.fromSq.col ++ "-" ++
    toString move.toSq.row ++ "," ++ toString move.toSq.col

/-- updateKillerMoves from the source. -/
def updateKillerMoves (move : Move) (depth : Nat) (σ : SearchSt) : SearchSt :=
  if MAX_DEPTH ≤ depth then σ
  else
    match σ.killers.get? depth with
    | none => σ
    | some pair =>
      if movesEqual (some move) pair.1 then σ
      else { σ with killers := σ.killers.set depth (some move, pair.1) }

/-- updateHistoryTable from the source: accumulate depth squared. -/
def updateHistoryTable (move : Move) (depth : Nat) (σ : SearchSt) : SearchSt :=
  let key := histKey move
  let old := (assocGet σ.histTable key).getD 0
  { σ with histTable := assocSet σ.histTable key (old + (depth : Int) * (depth : Int)) }

/-- hashPosition from the source: per-square type and color initials plus
the turn initial (castling rights and en passant are not hashed). -/
def hashPosition (gs : GameState) : String :=
  let boardPart : String :=
    (List.range 8).foldl (fun acc row =>
      (List.range 8).foldl (fun (acc2 : String) col =>
        match boardGet gs.board row col with
        | some piece =>
          (acc2.push (MoveValidation.typeChar piece.type)).push
            (MoveValidation.colorChar piece.color)
        | none => (acc2.push '-').push '-') acc) ("" : String)
  boardPart.push (MoveValidation.colorChar gs.currentTurn)

/-- clearOldTranspositions from the source. -/
def clearOldTranspositions (σ : SearchSt) : SearchSt :=
  if 100000 < σ.tt.length then { σ with tt := [] } else σ

/-- getOpeningBookMove from the source.  The source computes a history
string, looks it up in OPENING_BOOK and then returns null on every path
(the algebraic-notation parse is an unimplemented TODO), so the function
is constantly null. -/
def getOpeningBookMove (_gs : GameState) : Option Move := none

/-- orderMoves from the source: a stable descending sort by MVV-LVA
capture score, killer-move bonus, history score, promotion, center and
castling bonuses.  The piece on the from-square exists at every call
site; the impossible missing case contributes zero. -/
def orderMoves (moves : List Move) (gs : GameState) (depth : Nat) (σ : SearchSt) : List Move :=
  let board := gs.board
  let scored : List (Move × Int) := moves.map (fun move =>
    let fromP := boardGet board move.fromSq.row move.fromSq.col
    let toP := boardGet board move.toSq.row move.toSq.col
    let captureScore : Int :=
      match toP with
      | some tp =>
        10000 + PIECE_VALUES tp.type * 100 -
          (match fromP with
           | some fp => PIECE_VALUES fp.type
           | none => 0)
      | none => 0
    let killerScore : Int :=
      if depth < MAX_DEPTH then
        match σ.killers.get? depth with
        | some pair =>
          if movesEqual (some move) pair.1 then 9000
          else if movesEqual (some move) pair.2 then 8000
          else 0
        | none => 0
      else 0
    let histScore : Int := (assocGet σ.histTable (histKey move)).getD 0
    let promoScore : Int :=
      match fromP with
      | some fp =>
        if fp.type = PieceType.pawn ∧
            move.toSq.col = (if fp.color = Color.white then 7 else 0) then 9500
        else 0
      | none => 0
    let centerScore : Int :=
      if CENTER_SQUARES.any (fun s => s.row = move.toSq.row ∧ s.col = move.toSq.col) then 50
      else 0
    let castleScore : Int :=
      match fromP with
      | some fp =>
        if fp.type = PieceType.king ∧
            ((move.toSq.row : Int) - (move.fromSq.row : Int)).natAbs = 2 then 300
        else 0
      | none => 0
    (move, captureScore + killerScore + histScore + promoScore + centerScore + castleScore))
  (scored.mergeSort (fun a b => decide (b.2 ≤ a.2))).map (fun p => p.1)

/-- Loop state of the quiescence move loop: the two bounds, the clock
counter and an early-return value when a bound was hit. -/
structure QLoopState where
  qa : Rat
  qb : Rat
  tick : Nat
  done : Option Rat

/-- quiescence from the source: stand-pat bound then captures and
checking moves only, to a fixed small depth.  The module tables are read
by orderMoves but never written here. -/
def quiescence (env : Env) (botColor : Color) (σ : SearchSt) :
    Nat → GameState → Rat → Rat → Bool → Nat → Nat → Rat × Nat
  | 0, gs, _, _, _, _, tick => (evaluate gs botColor, tick)
  | d + 1, gs, alpha, beta, maximizing, startTime, tick =>
    let t := env.now tick
    let tick1 := tick + 1
    if TIME_LIMIT < t - startTime then (evaluate gs botColor, tick1)
    else
      let standPat := evaluate gs botColor
      if maximizing ∧ beta ≤ standPat then (beta, tick1)
      else if !maximizing ∧ standPat ≤ alpha then (alpha, tick1)
      else
        let α1 := if maximizing ∧ alpha < standPat then standPat else alpha
        let β1 := if !maximizing ∧ standPat < beta then standPat else beta
        let moves := generateLegalMoves gs gs.currentTurn
        let tacticalMoves := moves.filter (fun move =>
          (boardGet gs.board move.toSq.row move.toSq.col).isSome ||
            (let testState := applyMove gs move
             MoveValidation.isInCheck testState.board testState.currentTurn))
        if tacticalMoves.isEmpty then (standPat, tick1)
        else
          let ordered := orderMoves tacticalMoves gs 0 σ
          let final := ordered.foldl (fun (st : QLoopState) move =>
            if st.done.isSome then st
            else
              let testState := applyMove gs move
              let r := quiescence env botColor σ d testState st.qa st.qb (!maximizing)
                startTime st.tick
              let score := r.1
              if maximizing then
                if st.qb ≤ score then { st with tick := r.2, done := some st.qb }
                else if st.qa < score then { st with qa := score, tick := r.2 }
                else { st with tick := r.2 }
              else
                if score ≤ st.qa then { st with tick := r.2, done := some st.qa }
                else if score < st.qb then { st with qb := score, tick := r.2 }
                else { st with tick := r.2 }) ⟨α1, β1, tick1, none⟩
          match final.done with
          | some s => (s, final.tick)
          | none => ((if maximizing then final.qa else final.qb), final.tick)

/-- Loop state of the alpha-beta move loop. -/
structure ABState where
  bestScore : Rat
  alpha : Rat
  beta : Rat
  ttType : TTType
  σ : SearchSt
  tick : Nat
  broken : Bool

/-- The ordered move loop of alphaBeta at positive depth (the code after
the `depth <= 0` hand-off in the source), with the recursive call passed
as a function; split out so that the alphaBeta equation stays small. -/
def alphaBetaMoveLoop (env : Env) (botColor : Color) (depth : Nat)
    (recurse : GameState → Rat → Rat → Bool → Nat → SearchSt → Nat → Rat × SearchSt × Nat)
    (gs : GameState) (α2 β2 : Rat) (maximizing : Bool) (startTime : Nat)
    (σ : SearchSt) (tick1 : Nat) (hash : String) : Rat × SearchSt × Nat :=
  let moves := generateLegalMoves gs gs.currentTurn
  if moves.isEmpty then
    ((if MoveValidation.isInCheck gs.board gs.currentTurn then
        -MATE_SCORE + (depth : Rat)
      else 0), σ, tick1)
  else
    let ordered := orderMoves moves gs depth σ
    let final := ordered.foldl (fun (st : ABState) move =>
      if st.broken then st
      else
        let testState := applyMove gs move
        let r := recurse testState st.alpha st.beta (!maximizing) startTime st.σ st.tick
        let score := r.1
        let st0 := { st with σ := r.2.1, tick := r.2.2 }
        let st1 :=
          if maximizing then
            if st0.bestScore < score then
              if st0.alpha < score then
                { st0 with bestScore := score, alpha := score, ttType := TTType.exact }
              else { st0 with bestScore := score }
            else st0
          else
            if score < st0.bestScore then
              if score < st0.beta then
                { st0 with bestScore := score, beta := score, ttType := TTType.exact }
              else { st0 with bestScore := score }
            else st0
        if st1.beta ≤ st1.alpha then
          { st1 with
              σ := updateKillerMoves move depth st1.σ
              ttType := if maximizing then TTType.lower else TTType.upper
              broken := true }
        else st1)
      ⟨(if maximizing then -INFINITY else INFINITY), α2, β2, TTType.upper, σ, tick1, false⟩
    let σfin :=
      { final.σ with
          tt := assocSet final.σ.tt hash ⟨final.bestScore, depth, final.ttType⟩ }
    (final.bestScore, σfin, final.tick)

/-- alphaBeta from claude-opus-4-20250514.js: deadline check, transposition
probe, terminal checks, quiescence hand-off at depth zero, then the
ordered move loop with window narrowing, killer updates on cutoff, and a
transposition store of the final score. -/
def alphaBeta (env : Env) (botColor : Color) (depth : Nat) (gs : GameState)
    (alpha beta : Rat) (maximizing : Bool) (startTime : Nat) (σ : SearchSt)
    (tick : Nat) : Rat × SearchSt × Nat :=
  let t := env.now tick
  let tick1 := tick + 1
  if TIME_LIMIT < t - startTime then (evaluate gs botColor, σ, tick1)
  else
    let hash := hashPosition gs
    let probed : Option Rat × Rat × Rat :=
      match assocGet σ.tt hash with
      | some entry =>
        if depth ≤ entry.depth then
          if entry.ttype = TTType.exact then (some entry.score, alpha, beta)
          else
            let α2 :=
              if entry.ttype = TTType.lower ∧ alpha < entry.score then entry.score else alpha
            let β2 :=
              if entry.ttype = TTType.upper ∧ entry.score < beta then entry.score else beta
            if β2 ≤ α2 then (some entry.score, α2, β2) else (none, α2, β2)
        else (none, alpha, beta)
      | none => (none, alpha, beta)
    match probed with
    | (some s, _, _) => (s, σ, tick1)
    | (none, α2, β2) =>
      if isCheckmate gs then
        ((if maximizing then -MATE_SCORE + (depth : Rat) else MATE_SCORE - (depth : Rat)),
          σ, tick1)
      else if isDraw gs then (0, σ, tick1)
      else match depth with
      | 0 =>
        let q := quiescence env botColor σ QUIESCENCE_DEPTH gs α2 β2 maximizing startTime tick1
        (q.1, σ, q.2)
      | d + 1 =>
        alphaBetaMoveLoop env botColor depth
          (fun gs2 a2 b2 m2 s2 σ2 t2 => alphaBeta env botColor d gs2 a2 b2 m2 s2 σ2 t2)
          gs α2 β2 maximizing startTime σ tick1 hash

/-- State of the iterative-deepening loop at the root. -/
structure RootState where
  bestMove : Move
  bestScore : Rat
  σ : SearchSt
  tick : Nat
  brokenOuter : Bool

/-- State of the per-depth root move loop. -/
structure RootInner where
  currentScore : Rat
  currentBest : Option Move
  bestScore : Rat
  bestMove : Move
  σ : SearchSt
  tick : Nat
  broken : Bool

/-- makeMove from claude-opus-4-20250514.js: the (constantly null) opening
book, the zero- and one-move short cuts, the immediate-checkmate scan, and
iterative deepening over depths 1..MAX_DEPTH with the two fractional
deadline checks (70 percent at each depth start, 90 percent before each
root move). -/
def makeMove (env : Env) (gs : GameState) (botColor : Color) (σ0 : SearchSt) : Option Move :=
  let startTime := env.now 0
  let σ1 := clearOldTranspositions σ0
  match getOpeningBookMove gs with
  | some bookMove => some bookMove
  | none =>
    let moves := generateLegalMoves gs botColor
    match moves with
    | [] => none
    | m0 :: rest =>
      if rest.isEmpty then some m0
      else
        match moves.find? (fun move => isCheckmate (applyMove gs move)) with
        | some move => some move
        | none =>
          let final := ([1, 2, 3, 4] : List Nat).foldl (fun (st : RootState) depth =>
            if st.brokenOuter then st
            else
              let t := env.now st.tick
              let tick1 := st.tick + 1
              if TIME_LIMIT * 7 / 10 < t - startTime then
                { st with tick := tick1, brokenOuter := true }
              else
                let ordered := orderMoves moves gs depth st.σ
                let inner := ordered.foldl (fun (ist : RootInner) move =>
                  if ist.broken then ist
                  else
                    let t2 := env.now ist.tick
                    let tick2 := ist.tick + 1
                    if TIME_LIMIT * 9 / 10 < t2 - startTime then
                      { ist with tick := tick2, broken := true }
                    else
                      let testState := applyMove gs move
                      let r := alphaBeta env botColor (depth - 1) testState (-INFINITY)
                        INFINITY false startTime ist.σ tick2
                      let score := -r.1
                      let ist1 : RootInner :=
                        if ist.currentScore < score then
                          { ist with
                              currentScore := score
                              currentBest := some move
                              σ := updateHistoryTable move depth r.2.1
                              tick := r.2.2 }
                        else { ist with σ := r.2.1, tick := r.2.2 }
                      if ist1.bestScore < score then
                        { ist1 with bestScore := score, bestMove := move }
                      else ist1)
                  ⟨-INFINITY, none, st.bestScore, st.bestMove, st.σ, tick1, false⟩
                let σ2 :=
                  match inner.currentBest with
                  | some cb => updateKillerMoves cb 0 inner.σ
                  | none => inner.σ
                { bestMove := inner.bestMove, bestScore := inner.bestScore, σ := σ2,
                  tick := inner.tick, brokenOuter := false })
            ⟨m0, -INFINITY, σ1, 1, false⟩
          some final.bestMove

end Opus

/-!  Board-access lemmas shared by several claim proofs. -/

/-- A well-formed board: 8 rows of 8 squares, as every board built by the
application is. -/
def boardWF (b : Board) : Bool :=
  (b.length == 8) && b.all (fun r => r.length == 8)

theorem boardGet_boardSet_self {b : Board} (hwf : boardWF b = true) {r c : Nat}
    (hr : r < 8) (hc : c < 8) (v : Option Piece) :
    boardGet (boardSet b r c v) r c = v := by
  rw [boardWF, Bool.and_eq_true, beq_iff_eq, List.all_eq_true] at hwf
  obtain ⟨hlen, hrow⟩ := hwf
  have hrb : r < b.length := by omega
  have hcr : c < (b[r]).length := by
    have := hrow (b[r]) (List.getElem_mem hrb)
    rw [beq_iff_eq] at this
    omega
  unfold boardGet boardSet
  simp [List.get?_eq_getElem?, List.getElem?_modify_eq,
    List.getElem?_eq_getElem hrb, Option.map_some', List.getElem?_set_eq_of_lt _ hcr]

theorem boardGet_boardSet_ne {b : Board} {r c r2 c2 : Nat}
    (h : r ≠ r2 ∨ c ≠ c2) (v : Option Piece) :
    boardGet (boardSet b r2 c2 v) r c = boardGet b r c := by
  unfold boardGet boardSet
  rcases h with h | h
  · simp only [List.get?_eq_getElem?, List.getElem?_modify_ne _ b (Ne.symm h)]
  · simp only [List.get?_eq_getElem?, List.getElem?_modify]
    cases hb : b[r]? with
    | none => rfl
    | some rowList =>
      simp only [Option.map_some']
      by_cases hr2 : r2 = r
      · simp [hr2, List.getElem?_set_ne (Ne.symm h)]
      · simp [if_neg hr2]

theorem boardSet_wf {b : Board} (hwf : boardWF b = true) (r c : Nat) (v : Option Piece) :
    boardWF (boardSet b r c v) = true := by
  rw [boardWF, Bool.and_eq_true, beq_iff_eq, List.all_eq_true] at hwf ⊢
  obtain ⟨hlen, hrow⟩ := hwf
  refine ⟨?_, ?_⟩
  · rw [boardSet, List.length_modify, hlen]
  · intro row hmem
    rw [boardSet] at hmem
    obtain ⟨i, hi, hget⟩ := List.mem_iff_getElem.mp hmem
    rw [List.length_modify] at hi
    have hq : (List.modify (fun rowList => rowList.set c v) r b)[i]? =
        (fun a => if r = i then a.set c v else a) <$> b[i]? := List.getElem?_modify ..
    rw [List.getElem?_eq_getElem (by rw [List.length_modify]; exact hi),
      List.getElem?_eq_getElem hi] at hq
    simp only [Option.map_eq_map, Option.map_some', Option.some.injEq] at hq
    have hbase := hrow (b[i]) (List.getElem_mem hi)
    rw [beq_iff_eq] at hbase
    rw [← hget, hq]
    by_cases hri : r = i
    · simp only [if_pos hri, beq_iff_eq, List.length_set]
      exact hbase
    · simp only [if_neg hri, beq_iff_eq]
      exact hbase

/-- C10: a pawn move executed onto the opposing back column always leaves
a queen of the moving color on the destination square, whatever the move
object says: promotion is unconditional and always to a queen. -/
theorem c10_auto_queen_promotion (gs : GameState) (fromSq toSq : Square) (c : Color)
    (hwf : boardWF gs.board = true)
    (hfrom : boardGet gs.board fromSq.row fromSq.col = some ⟨PieceType.pawn, c⟩)
    (hcol : toSq.col = (if c = Color.white then 7 else 0))
    (hrow : toSq.row < 8) :
    boardGet (App.executeMove gs fromSq toSq).board toSq.row toSq.col =
      some ⟨PieceType.queen, c⟩ := by
  simp only [App.executeMove, hfrom]
  simp only [reduceCtorEq, and_false, false_and, decide_False, if_false, if_neg,
    Bool.false_eq_true, hcol, if_pos rfl, and_true, decide_True, if_true]
  refine boardGet_boardSet_self ?_ hrow (by cases c <;> decide) _
  repeat first
    | exact hwf
    | apply boardSet_wf
    | split

/-- An empty board, used to build the concrete positions below. -/
def emptyBoard : Board :=
  (List.range 8).map (fun _ => (List.range 8).map (fun _ => none))

/-- Place one piece on a board, used to build the concrete positions
below. -/
def placePiece (b : Board) (r c : Nat) (ty : PieceType) (co : Color) : Board :=
  boardSet b r c (some ⟨ty, co⟩)

/-- The concrete position of the C10 witness: a white pawn one step from
the back column, plus the two kings. -/
def promoWitnessGS : GameState :=
  { createGameState with
      board := placePiece (placePiece (placePiece emptyBoard 0 6 PieceType.pawn Color.white)
        4 0 PieceType.king Color.white) 4 7 PieceType.king Color.black }

theorem c10_auto_queen_promotion_witness :
    boardWF promoWitnessGS.board = true ∧
      boardGet promoWitnessGS.board 0 6 = some ⟨PieceType.pawn, Color.white⟩ ∧
      boardGet (App.executeMove promoWitnessGS ⟨0, 6⟩ ⟨0, 7⟩).board 0 7 =
        some ⟨PieceType.queen, Color.white⟩ :=
  ⟨by decide, by decide,
    c10_auto_queen_promotion promoWitnessGS ⟨0, 6⟩ ⟨0, 7⟩ Color.white (by decide) (by decide)
      (by decide) (by decide)⟩

/-- Pointwise order on the four castling-rights booleans: every flag true
on the left is true on the right. -/
def rightsLe (a b : CastlingRights) : Bool :=
  (!a.whiteKingSide || b.whiteKingSide) && (!a.whiteQueenSide || b.whiteQueenSide) &&
    (!a.blackKingSide || b.blackKingSide) && (!a.blackQueenSide || b.blackQueenSide)

theorem rightsLe_refl (cr : CastlingRights) : rightsLe cr cr = true := by
  cases cr
  simp [rightsLe]

theorem bimp_trans {x y z : Bool} (h1 : (!x || y) = true) (h2 : (!y || z) = true) :
    (!x || z) = true := by
  cases x <;> cases y <;> cases z <;> simp_all

theorem rightsLe_trans {a b c : CastlingRights} (h1 : rightsLe a b = true)
    (h2 : rightsLe b c = true) : rightsLe a c = true := by
  cases a; cases b; cases c
  simp only [rightsLe, Bool.and_eq_true] at *
  exact ⟨⟨⟨bimp_trans h1.1.1.1 h2.1.1.1, bimp_trans h1.1.1.2 h2.1.1.2⟩,
    bimp_trans h1.1.2 h2.1.2⟩, bimp_trans h1.2 h2.2⟩

theorem clearRightsKingMove_le (p : Piece) (cr : CastlingRights) :
    rightsLe (App.clearRightsKingMove p cr) cr = true := by
  cases cr
  unfold App.clearRightsKingMove
  repeat' split
  all_goals simp [rightsLe]

theorem clearRightsRookMove_le (p : Piece) (fromRow : Nat) (cr : CastlingRights) :
    rightsLe (App.clearRightsRookMove p fromRow cr) cr = true := by
  cases cr
  unfold App.clearRightsRookMove
  repeat' split
  all_goals simp [rightsLe]

theorem clearRightsRookCaptured_le (cp : Option Piece) (toRow : Nat) (cr : CastlingRights) :
    rightsLe (App.clearRightsRookCaptured cp toRow cr) cr = true := by
  cases cr
  unfold App.clearRightsRookCaptured
  repeat' split
  all_goals simp [rightsLe]

/-- The move is a two-square pawn push: the from-square holds a pawn and
the column changes by exactly two. -/
def isDoublePawnPush (gs : GameState) (fromSq toSq : Square) : Bool :=
  match boardGet gs.board fromSq.row fromSq.col with
  | some p => p.type == PieceType.pawn && (((toSq.col : Int) - (fromSq.col : Int)).natAbs == 2)
  | none => false

/-- A pawn move that isValidMove accepts and that changes the column by
two is a straight push: the row does not change. -/
theorem valid_pawn_double_push_same_row (gs : GameState) (fromSq toSq : Square) (p : Piece)
    (hp : boardGet gs.board fromSq.row fromSq.col = some p)
    (hpt : p.type = PieceType.pawn)
    (hd : ((toSq.col : Int) - (fromSq.col : Int)).natAbs = 2)
    (h : MoveValidation.isValidMove gs.board fromSq toSq gs = true) :
    toSq.row = fromSq.row := by
  simp only [MoveValidation.isValidMove, hp, hpt] at h
  iterate 3
    split at h
    · exact absurd h (by simp)
  simp only [MoveValidation.isValidPawnMove] at h
  split at h
  · rename_i hrd
    omega
  · by_cases hc : p.color = Color.white <;> simp only [hc, reduceIte] at h <;> split at h
    · rename_i hcd
      omega
    · exact absurd h (by simp)
    · rename_i hcd
      omega
    · exact absurd h (by simp)

/-- C7: every executed valid move can only clear castling-rights flags,
never re-grant them, and the resulting en-passant target is null unless
the move is a two-square pawn push, in which case it is the square passed
over. -/
theorem c7_executeMove_invariants (gs : GameState) (fromSq toSq : Square)
    (h : MoveValidation.isValidMove gs.board fromSq toSq gs = true) :
    rightsLe (App.executeMove gs fromSq toSq).castlingRights gs.castlingRights = true ∧
      (App.executeMove gs fromSq toSq).enPassantTarget =
        (if isDoublePawnPush gs fromSq toSq then
          some ⟨fromSq.row, (fromSq.col + toSq.col) / 2⟩
        else none) := by
  cases hb : boardGet gs.board fromSq.row fromSq.col with
  | none => simp [MoveValidation.isValidMove, hb] at h
  | some p =>
    constructor
    · simp only [App.executeMove, hb]
      exact rightsLe_trans (clearRightsRookCaptured_le _ _ _)
        (rightsLe_trans (clearRightsRookMove_le _ _ _) (clearRightsKingMove_le _ _))
    · simp only [App.executeMove, hb, isDoublePawnPush]
      by_cases hdp : p.type = PieceType.pawn ∧ ((toSq.col : Int) - (fromSq.col : Int)).natAbs = 2
      · have hrr : toSq.row = fromSq.row :=
          valid_pawn_double_push_same_row gs fromSq toSq p hb hdp.1 hdp.2 h
        simp [hdp.1, hdp.2, hrr]
      · have hb2 :
            ¬((p.type == PieceType.pawn &&
              (((toSq.col : Int) - (fromSq.col : Int)).natAbs == 2)) = true) := by
          simp only [Bool.and_eq_true, beq_iff_eq]
          intro hcon
          exact hdp ⟨hcon.1, hcon.2⟩
        rw [if_neg hdp, if_neg hb2]

/-- The concrete position of the C7 witness: a white pawn on its start
column about to double-push, plus the two kings. -/
def doublePushWitnessGS : GameState :=
  { createGameState with
      board := placePiece (placePiece (placePiece emptyBoard 3 1 PieceType.pawn Color.white)
        4 0 PieceType.king Color.white) 4 7 PieceType.king Color.black }

theorem c7_executeMove_invariants_witness :
    MoveValidation.isValidMove doublePushWitnessGS.board ⟨3, 1⟩ ⟨3, 3⟩ doublePushWitnessGS =
        true ∧
      rightsLe (App.executeMove doublePushWitnessGS ⟨3, 1⟩ ⟨3, 3⟩).castlingRights
          doublePushWitnessGS.castlingRights = true ∧
      (App.executeMove doublePushWitnessGS ⟨3, 1⟩ ⟨3, 3⟩).enPassantTarget =
        (if isDoublePawnPush doublePushWitnessGS ⟨3, 1⟩ ⟨3, 3⟩ then
          some ⟨(3 : Nat), (1 + 3) / 2⟩
        else none) :=
  ⟨by decide,
    (c7_executeMove_invariants doublePushWitnessGS ⟨3, 1⟩ ⟨3, 3⟩ (by decide)).1,
    (c7_executeMove_invariants doublePushWitnessGS ⟨3, 1⟩ ⟨3, 3⟩ (by decide)).2⟩

/-- The position before the black double push in the en-passant scenario:
a black pawn on its start column, a white pawn placed to capture en
passant, and the two kings; black to move. -/
def epStartGS : GameState :=
  { createGameState with
      board := placePiece (placePiece (placePiece (placePiece emptyBoard
        3 6 PieceType.pawn Color.black) 2 4 PieceType.pawn Color.white)
        4 0 PieceType.king Color.white) 4 7 PieceType.king Color.black
      currentTurn := Color.black }

/-- The position after the black double push (3,6) to (3,4). -/
def epMidGS : GameState := App.executeMove epStartGS ⟨3, 6⟩ ⟨3, 4⟩

/-- The position after white captures en passant onto the target (3,5). -/
def epEndGS : GameState := App.executeMove epMidGS ⟨2, 4⟩ ⟨3, 5⟩

/-- C1: the double push sets the en-passant target and the diagonal move
onto it is accepted as legal, and the target is cleared by the next move;
but executing the capture does not remove the double-pushed black pawn:
the removal reads square (toRow - 1, toCol) = (2,5) instead of the pushed
pawn square (toRow, toCol - 1) = (3,4) (a row/column transposition), so
the black pawn survives on (3,4) while the white pawn lands on (3,5). -/
theorem c1_en_passant_capture_leaves_pawn :
    epMidGS.enPassantTarget = some ⟨3, 5⟩ ∧
      MoveValidation.isValidMove epMidGS.board ⟨2, 4⟩ ⟨3, 5⟩ epMidGS = true ∧
      boardGet epEndGS.board 3 4 = some ⟨PieceType.pawn, Color.black⟩ ∧
      boardGet epEndGS.board 3 5 = some ⟨PieceType.pawn, Color.white⟩ ∧
      epEndGS.enPassantTarget = none := by
  refine ⟨by decide, by decide, by decide, by decide, by decide⟩

/-- A position with a white knight pinned against the white king by a
black rook along row 0. -/
def pinnedGS : GameState :=
  { createGameState with
      board := placePiece (placePiece (placePiece (placePiece emptyBoard
        0 0 PieceType.king Color.white) 0 3 PieceType.knight Color.white)
        0 7 PieceType.rook Color.black) 4 7 PieceType.king Color.black }

/-- C2 counterexample: the apply boundary accepts the pinned knight move
(0,3) to (2,4) even though the move is absent from the legal-move list and
the resulting position leaves the white king attacked by the rook. -/
theorem c2_boundary_accepts_pinned_move :
    MoveValidation.isValidMove pinnedGS.board ⟨0, 3⟩ ⟨2, 4⟩ pinnedGS = true ∧
      MoveValidation.isInCheck (MoveValidation.makeMove pinnedGS.board ⟨0, 3⟩ ⟨2, 4⟩)
          Color.white = true ∧
      (⟨⟨0, 3⟩, ⟨2, 4⟩⟩ : Move) ∉ Opus.generateLegalMoves pinnedGS Color.white ∧
      (App.handleMove pinnedGS ⟨0, 3⟩ ⟨2, 4⟩).isSome = true := by
  refine ⟨by decide, by decide, by decide, by decide⟩

/-- C2 amended: the apply boundary rejects exactly the moves that fail the
per-piece isValidMove check, producing no new state on rejection and
applying executeMove on acceptance.  The check is attack-aware only for the
king itself: an accepted one-square king move never lands on a square
attacked by the opponent (and castling separately requires safe departure,
transit and destination squares).  Non-king moves are not tested against
the safety of the moving side's own king, so a pinned piece's move is
accepted and applied even though the legal-move list excludes it. -/
theorem c2_boundary_pseudo_legal_only :
    (∀ (gs : GameState) (fromSq toSq : Square),
        (App.handleMove gs fromSq toSq = none ↔
          MoveValidation.isValidMove gs.board fromSq toSq gs = false) ∧
        (MoveValidation.isValidMove gs.board fromSq toSq gs = true →
          App.handleMove gs fromSq toSq = some (App.executeMove gs fromSq toSq))) ∧
    (∀ (gs : GameState) (fromSq toSq : Square) (p : Piece),
        boardGet gs.board fromSq.row fromSq.col = some p →
        p.type = PieceType.king →
        ((toSq.row : Int) - (fromSq.row : Int)).natAbs ≤ 1 →
        ((toSq.col : Int) - (fromSq.col : Int)).natAbs ≤ 1 →
        MoveValidation.isValidMove gs.board fromSq toSq gs = true →
        MoveValidation.isSquareUnderAttack
          (MoveValidation.makeMove gs.board fromSq toSq) toSq
          (oppositeColor gs.currentTurn) = false) := by
  constructor
  · intro gs fromSq toSq
    cases h : MoveValidation.isValidMove gs.board fromSq toSq gs
    · exact ⟨by simp [App.handleMove, h], fun h1 => absurd h1 (by simp [h])⟩
    · exact ⟨by simp [App.handleMove, h], fun _ => by simp [App.handleMove, h]⟩
  · intro gs fromSq toSq p hp hpt hr1 hc1 h
    simp only [MoveValidation.isValidMove, hp, hpt] at h
    iterate 3
      split at h
      · exact absurd h (by simp)
    simp only [MoveValidation.isValidKingMove] at h
    rw [if_pos ⟨hr1, hc1⟩] at h
    simpa using h

/-- The two lone kings used by the C2 witness. -/
def kingsOnlyGS : GameState :=
  { createGameState with
      board := placePiece (placePiece emptyBoard 0 0 PieceType.king Color.white)
        7 7 PieceType.king Color.black }

theorem c2_boundary_pseudo_legal_only_witness :
    App.handleMove createGameState ⟨0, 0⟩ ⟨5, 5⟩ = none ∧
      App.handleMove kingsOnlyGS ⟨0, 0⟩ ⟨0, 1⟩ =
        some (App.executeMove kingsOnlyGS ⟨0, 0⟩ ⟨0, 1⟩) ∧
      MoveValidation.isSquareUnderAttack
        (MoveValidation.makeMove kingsOnlyGS.board ⟨0, 0⟩ ⟨0, 1⟩) ⟨0, 1⟩
        (oppositeColor kingsOnlyGS.currentTurn) = false :=
  ⟨(c2_boundary_pseudo_legal_only.1 createGameState ⟨0, 0⟩ ⟨5, 5⟩).1.mpr (by decide),
    (c2_boundary_pseudo_legal_only.1 kingsOnlyGS ⟨0, 0⟩ ⟨0, 1⟩).2 (by decide),
    c2_boundary_pseudo_legal_only.2 kingsOnlyGS ⟨0, 0⟩ ⟨0, 1⟩ ⟨PieceType.king, Color.white⟩
      (by decide) rfl (by decide) (by decide) (by decide)⟩

/-- Two-kings position carrying an en-passant target. -/
def epVariantA : GameState := { kingsOnlyGS with enPassantTarget := some ⟨3, 2⟩ }

/-- The same position without the en-passant target. -/
def epVariantB : GameState := kingsOnlyGS

/-- The position string shared by both variants. -/
def epVariantString : String :=
  MoveValidation.getBoardPositionString epVariantA.board epVariantA

/-- C3 counterexample: two positions that differ only in their en-passant
target produce the same position string, so they are counted as the same
occurrence, and three such occurrences do trigger isDrawByRepetition. -/
theorem c3_repetition_counts_ep_variants_as_equal :
    epVariantA.enPassantTarget ≠ epVariantB.enPassantTarget ∧
      MoveValidation.getBoardPositionString epVariantA.board epVariantA =
        MoveValidation.getBoardPositionString epVariantB.board epVariantB ∧
      MoveValidation.isDrawByRepetition
        { epVariantA with
            positionHistory := [epVariantString, epVariantString, epVariantString] } = true := by
  refine ⟨by decide, by set_option maxRecDepth 4000 in decide,
    by set_option maxRecDepth 4000 in decide⟩

/-- C3 amended: isDrawByRepetition is true exactly when the last recorded
position string occurs at least three times in the history, and the
position string does not depend on the en-passant target at all (it
encodes the per-square type and color initials, the side to move and the
castling rights). -/
theorem c3_repetition_by_position_string :
    (∀ gs : GameState, MoveValidation.isDrawByRepetition gs = true ↔
      ∃ s, gs.positionHistory.getLast? = some s ∧ 3 ≤ gs.positionHistory.count s) ∧
    (∀ (b : Board) (gs : GameState) (ep : Option Square),
      MoveValidation.getBoardPositionString b { gs with enPassantTarget := ep } =
        MoveValidation.getBoardPositionString b gs) := by
  constructor
  · intro gs
    simp only [MoveValidation.isDrawByRepetition]
    split
    · rename_i hlen
      simp only [Bool.false_eq_true, false_iff]
      rintro ⟨s, hs, hc⟩
      have hle := List.count_le_length s gs.positionHistory
      omega
    · rename_i hlen
      split
      · rename_i hnone
        cases hl : gs.positionHistory with
        | nil => rw [hl] at hlen; simp at hlen
        | cons a l => rw [hl] at hnone; simp [List.getLast?_concat] at hnone
      · rename_i cur hcur
        simp only [decide_eq_true_eq]
        constructor
        · intro hc
          exact ⟨cur, hcur, hc⟩
        · rintro ⟨s, hs, hc⟩
          rw [hcur] at hs
          cases hs
          exact hc
  · intro b gs ep
    rfl

theorem c3_repetition_by_position_string_witness :
    MoveValidation.isDrawByRepetition
      { kingsOnlyGS with
          positionHistory := [epVariantString, epVariantString, epVariantString] } = true :=
  (c3_repetition_by_position_string.1 _).mpr
    ⟨epVariantString, by set_option maxRecDepth 4000 in decide,
      by set_option maxRecDepth 4000 in decide⟩

/-- The back column of a color (kingStartCol in isValidCastling). -/
def backColumn : Color → Nat
  | Color.white => 0
  | Color.black => 7

/-- The rook corner row of a castling wing. -/
def rookRowOf (kingSide : Bool) : Nat := if kingSide then 7 else 0

/-- The castling-rights flag of a color and wing. -/
def castlingFlag (cr : CastlingRights) (c : Color) (kingSide : Bool) : Bool :=
  match c, kingSide with
  | Color.white, true => cr.whiteKingSide
  | Color.white, false => cr.whiteQueenSide
  | Color.black, true => cr.blackKingSide
  | Color.black, false => cr.blackQueenSide

/-- Castling acceptance: with the king and the wing rook on their corner
squares, isValidMove accepts the two-square king move exactly when the
rights flag is set, the squares strictly between king and rook are empty,
the king is not attacked where it stands, and neither the transit square
nor the destination square is attacked by the opponent. -/
theorem castling_accept_iff (gs : GameState) (kingSide : Bool) (c : Color)
    (hc : gs.currentTurn = c)
    (hk : boardGet gs.board 4 (backColumn c) = some ⟨PieceType.king, c⟩)
    (hr : boardGet gs.board (rookRowOf kingSide) (backColumn c) =
      some ⟨PieceType.rook, c⟩) :
    MoveValidation.isValidMove gs.board ⟨4, backColumn c⟩
        ⟨(if kingSide then 6 else 2), backColumn c⟩ gs =
      (castlingFlag gs.castlingRights c kingSide &&
        ((if kingSide then [5, 6] else [3, 2, 1]) : List Nat).all
          (fun r => (boardGet gs.board r (backColumn c)).isNone) &&
        !(MoveValidation.isSquareUnderAttack gs.board ⟨4, backColumn c⟩ (oppositeColor c)) &&
        !(MoveValidation.isSquareUnderAttack gs.board
          ⟨(if kingSide then 5 else 3), backColumn c⟩ (oppositeColor c)) &&
        !(MoveValidation.isSquareUnderAttack gs.board
          ⟨(if kingSide then 6 else 2), backColumn c⟩ (oppositeColor c))) := by
  cases c <;> cases kingSide <;>
    simp only [backColumn, rookRowOf, castlingFlag, Bool.false_eq_true, Bool.true_eq_false,
      if_true, if_false, reduceCtorEq, reduceIte] at hk hr ⊢
  case white.true =>
    simp [MoveValidation.isValidMove, MoveValidation.isValidKingMove,
      MoveValidation.isValidCastling, hk, hr, hc,
      show List.range 2 = [0, 1] from rfl, -List.all_eq_true]
    cases h6 : boardGet gs.board 6 0 <;> simp [h6, Bool.and_assoc]
  case white.false =>
    simp [MoveValidation.isValidMove, MoveValidation.isValidKingMove,
      MoveValidation.isValidCastling, hk, hr, hc,
      show List.range 3 = [0, 1, 2] from rfl, -List.all_eq_true]
    cases h2 : boardGet gs.board 2 0 <;> simp [h2, Bool.and_assoc]
  case black.true =>
    simp [MoveValidation.isValidMove, MoveValidation.isValidKingMove,
      MoveValidation.isValidCastling, hk, hr, hc,
      show List.range 2 = [0, 1] from rfl, -List.all_eq_true]
    cases h6 : boardGet gs.board 6 7 <;> simp [h6, Bool.and_assoc]
  case black.false =>
    simp [MoveValidation.isValidMove, MoveValidation.isValidKingMove,
      MoveValidation.isValidCastling, hk, hr, hc,
      show List.range 3 = [0, 1, 2] from rfl, -List.all_eq_true]
    cases h2 : boardGet gs.board 2 7 <;> simp [h2, Bool.and_assoc]

theorem castlingFlag_false_of_rightsLe {a b : CastlingRights}
    (h : rightsLe a b = true) (c : Color) (ks : Bool)
    (hb : castlingFlag b c ks = false) : castlingFlag a c ks = false := by
  cases a; cases b
  cases c <;> cases ks <;> simp_all [rightsLe, castlingFlag]

theorem king_move_clears_rights (gs : GameState) (fromSq toSq : Square) (p : Piece)
    (hp : boardGet gs.board fromSq.row fromSq.col = some p)
    (hk : p.type = PieceType.king) (ks : Bool) :
    castlingFlag (App.executeMove gs fromSq toSq).castlingRights p.color ks = false := by
  simp only [App.executeMove, hp]
  refine castlingFlag_false_of_rightsLe
    (rightsLe_trans (clearRightsRookCaptured_le _ _ _) (clearRightsRookMove_le _ _ _)) _ _ ?_
  rcases p with ⟨pt, pc⟩
  cases hk
  cases pc <;> cases ks <;> simp [App.clearRightsKingMove, castlingFlag]

theorem rook_move_clears_rights (gs : GameState) (fromSq toSq : Square) (p : Piece)
    (hp : boardGet gs.board fromSq.row fromSq.col = some p)
    (ht : p.type = PieceType.rook) (ks : Bool) (hrow : fromSq.row = rookRowOf ks) :
    castlingFlag (App.executeMove gs fromSq toSq).castlingRights p.color ks = false := by
  simp only [App.executeMove, hp]
  refine castlingFlag_false_of_rightsLe (clearRightsRookCaptured_le _ _ _) _ _ ?_
  rcases p with ⟨pt, pc⟩
  cases ht
  simp only [App.clearRightsKingMove, reduceCtorEq, if_neg, if_false]
  cases pc <;> cases ks <;>
    simp_all [App.clearRightsRookMove, castlingFlag, rookRowOf]

theorem rook_capture_clears_rights (gs : GameState) (fromSq toSq : Square) (p q : Piece)
    (hp : boardGet gs.board fromSq.row fromSq.col = some p)
    (hq : boardGet gs.board toSq.row toSq.col = some q)
    (ht : q.type = PieceType.rook) (ks : Bool) (hrow : toSq.row = rookRowOf ks) :
    castlingFlag (App.executeMove gs fromSq toSq).castlingRights q.color ks = false := by
  simp only [App.executeMove, hp, hq]
  rcases q with ⟨qt, qc⟩
  cases ht
  cases qc <;> cases ks <;>
    simp_all [App.clearRightsRookCaptured, castlingFlag, rookRowOf]

/-- C5: castling is accepted exactly when the rights flag is still set,
every square strictly between king and rook is empty, the king is not in
check and neither the transit nor the destination square is attacked; and
the flag is cleared whenever the king moves, the wing rook moves off its
corner row, or the wing rook is captured there. -/
theorem c5_castling_legality :
    (∀ (gs : GameState) (kingSide : Bool) (c : Color),
      gs.currentTurn = c →
      boardGet gs.board 4 (backColumn c) = some ⟨PieceType.king, c⟩ →
      boardGet gs.board (rookRowOf kingSide) (backColumn c) = some ⟨PieceType.rook, c⟩ →
      MoveValidation.isValidMove gs.board ⟨4, backColumn c⟩
          ⟨(if kingSide then 6 else 2), backColumn c⟩ gs =
        (castlingFlag gs.castlingRights c kingSide &&
          ((if kingSide then [5, 6] else [3, 2, 1]) : List Nat).all
            (fun r => (boardGet gs.board r (backColumn c)).isNone) &&
          !(MoveValidation.isSquareUnderAttack gs.board ⟨4, backColumn c⟩ (oppositeColor c)) &&
          !(MoveValidation.isSquareUnderAttack gs.board
            ⟨(if kingSide then 5 else 3), backColumn c⟩ (oppositeColor c)) &&
          !(MoveValidation.isSquareUnderAttack gs.board
            ⟨(if kingSide then 6 else 2), backColumn c⟩ (oppositeColor c)))) ∧
    (∀ (gs : GameState) (fromSq toSq : Square) (p : Piece),
      boardGet gs.board fromSq.row fromSq.col = some p →
      p.type = PieceType.king → ∀ ks : Bool,
      castlingFlag (App.executeMove gs fromSq toSq).castlingRights p.color ks = false) ∧
    (∀ (gs : GameState) (fromSq toSq : Square) (p : Piece),
      boardGet gs.board fromSq.row fromSq.col = some p →
      p.type = PieceType.rook → ∀ ks : Bool, fromSq.row = rookRowOf ks →
      castlingFlag (App.executeMove gs fromSq toSq).castlingRights p.color ks = false) ∧
    (∀ (gs : GameState) (fromSq toSq : Square) (p q : Piece),
      boardGet gs.board fromSq.row fromSq.col = some p →
      boardGet gs.board toSq.row toSq.col = some q →
      q.type = PieceType.rook → ∀ ks : Bool, toSq.row = rookRowOf ks →
      castlingFlag (App.executeMove gs fromSq toSq).castlingRights q.color ks = false) :=
  ⟨fun gs ks c hc hk hr => castling_accept_iff gs ks c hc hk hr,
    fun gs f t p hp hk ks => king_move_clears_rights gs f t p hp hk ks,
    fun gs f t p hp ht ks hrow => rook_move_clears_rights gs f t p hp ht ks hrow,
    fun gs f t p q hp hq ht ks hrow => rook_capture_clears_rights gs f t p q hp hq ht ks hrow⟩

/-- A legal white king-side castling position: king (4,0), rook (7,0),
empty path, no attackers. -/
def castleGS : GameState :=
  { createGameState with
      board := placePiece (placePiece (placePiece emptyBoard 4 0 PieceType.king Color.white)
        7 0 PieceType.rook Color.white) 4 7 PieceType.king Color.black }

/-- A black queen about to capture the white king-side rook on (7,0). -/
def rookCaptureGS : GameState :=
  { createGameState with
      board := placePiece (placePiece (placePiece (placePiece emptyBoard
        4 0 PieceType.king Color.white) 7 0 PieceType.rook Color.white)
        7 5 PieceType.queen Color.black) 4 7 PieceType.king Color.black
      currentTurn := Color.black }

theorem c5_castling_legality_witness :
    MoveValidation.isValidMove castleGS.board ⟨4, 0⟩ ⟨6, 0⟩ castleGS = true ∧
      castlingFlag (App.executeMove castleGS ⟨4, 0⟩ ⟨6, 0⟩).castlingRights
          Color.white true = false ∧
      castlingFlag (App.executeMove castleGS ⟨7, 0⟩ ⟨7, 3⟩).castlingRights
          Color.white true = false ∧
      castlingFlag (App.executeMove rookCaptureGS ⟨7, 5⟩ ⟨7, 0⟩).castlingRights
          Color.white true = false :=
  ⟨(c5_castling_legality.1 castleGS true Color.white rfl (by decide) (by decide)).trans
      (by decide),
    c5_castling_legality.2.1 castleGS ⟨4, 0⟩ ⟨6, 0⟩ ⟨PieceType.king, Color.white⟩
      (by decide) rfl true,
    c5_castling_legality.2.2.1 castleGS ⟨7, 0⟩ ⟨7, 3⟩ ⟨PieceType.rook, Color.white⟩
      (by decide) rfl true rfl,
    c5_castling_legality.2.2.2 rookCaptureGS ⟨7, 5⟩ ⟨7, 0⟩ ⟨PieceType.queen, Color.black⟩
      ⟨PieceType.rook, Color.white⟩ (by decide) (by decide) rfl true rfl⟩

/-- C8: static evaluation is exactly antisymmetric in the perspective
argument: the Opus evaluate negates its perspective-independent score for
a black perspective (including the terminal branches), and the Grok
minimax leaf value does the same with its evaluateBoard score. -/
theorem c8_evaluate_antisymmetric :
    (∀ gs : GameState, Opus.evaluate gs Color.white = -Opus.evaluate gs Color.black) ∧
    (∀ (board : Board) (gs : GameState) (alpha beta : Int) (m : Bool),
      (Grok.minimax board gs 0 alpha beta m Color.white).score =
        -(Grok.minimax board gs 0 alpha beta m Color.black).score) := by
  constructor
  · intro gs
    by_cases h1 : Opus.isCheckmate gs = true
    · simp only [Opus.evaluate, h1, if_true]
      cases hct : gs.currentTurn <;> simp [hct]
    · by_cases h2 : Opus.isDraw gs = true
      · simp [Opus.evaluate, h1, h2]
      · simp only [Opus.evaluate, h1, h2, Bool.false_eq_true, if_false]
        simp
  · intro board gs alpha beta m
    simp [Grok.minimax]

/-- With an empty transposition table and an unexpired clock, alphaBeta at
a checkmated node returns plus-or-minus (MATE_SCORE minus the remaining
depth): the depth parameter counts levels still to search, not plies from
the root. -/
theorem alphaBeta_checkmate_score (env : Opus.Env) (botColor : Color) (depth : Nat)
    (gs : GameState) (alpha beta : Rat) (maximizing : Bool) (startTime tick : Nat)
    (σ : Opus.SearchSt) (htt : σ.tt = [])
    (htime : ¬(Opus.TIME_LIMIT < env.now tick - startTime))
    (hm : Opus.isCheckmate gs = true) :
    (Opus.alphaBeta env botColor depth gs alpha beta maximizing startTime σ tick).1 =
      if maximizing then -Opus.MATE_SCORE + (depth : Rat)
      else Opus.MATE_SCORE - (depth : Rat) := by
  rw [Opus.alphaBeta]
  rw [if_neg htime]
  simp only [htt, Opus.assocGet, List.find?, Option.map_none']
  simp only [hm, if_true, reduceIte]

/-- C6 amended: a checkmate node in alphaBeta scores plus-or-minus
(MATE_SCORE minus the remaining search depth), so the magnitude grows as
the mate lies further from the root (where the remaining depth is
smaller), rather than shrinking with ply-to-mate. -/
theorem c6_mate_score_uses_remaining_depth (env : Opus.Env) (botColor : Color)
    (depth : Nat) (gs : GameState) (alpha beta : Rat) (maximizing : Bool)
    (startTime tick : Nat) (σ : Opus.SearchSt) (htt : σ.tt = [])
    (htime : ¬(Opus.TIME_LIMIT < env.now tick - startTime))
    (hm : Opus.isCheckmate gs = true) :
    (Opus.alphaBeta env botColor depth gs alpha beta maximizing startTime σ tick).1 =
      if maximizing then -Opus.MATE_SCORE + (depth : Rat)
      else Opus.MATE_SCORE - (depth : Rat) :=
  alphaBeta_checkmate_score env botColor depth gs alpha beta maximizing startTime tick σ
    htt htime hm

/-- A clock that always reads zero: no deadline ever expires. -/
def zeroEnv : Opus.Env := ⟨fun _ => 0⟩

/-- A checkmate position: the black king is cornered on (0,7) by the white
queen on (1,6), which is protected by the white king on (2,5); black to
move. -/
def mateGS : GameState :=
  { createGameState with
      board := placePiece (placePiece (placePiece emptyBoard 0 7 PieceType.king Color.black)
        1 6 PieceType.queen Color.white) 2 5 PieceType.king Color.white
      currentTurn := Color.black }

/-- C6 counterexample: evaluating the same checkmated position at
remaining depth 3 (one ply below a depth-4 root, the faster mate) scores
MATE_SCORE - 3, while at remaining depth 1 (three plies below the root,
the slower mate) it scores MATE_SCORE - 1; the slower mate receives the
strictly better score for the winning side, contradicting the claim that
the score magnitude decreases with the number of plies from the root. -/
theorem c6_slower_mate_scores_strictly_better :
    (Opus.alphaBeta zeroEnv Color.white 3 mateGS (-Opus.INFINITY) Opus.INFINITY false 0
        Opus.initialSearchSt 1).1 = Opus.MATE_SCORE - 3 ∧
      (Opus.alphaBeta zeroEnv Color.white 1 mateGS (-Opus.INFINITY) Opus.INFINITY false 0
        Opus.initialSearchSt 1).1 = Opus.MATE_SCORE - 1 ∧
      (Opus.alphaBeta zeroEnv Color.white 3 mateGS (-Opus.INFINITY) Opus.INFINITY false 0
          Opus.initialSearchSt 1).1 <
        (Opus.alphaBeta zeroEnv Color.white 1 mateGS (-Opus.INFINITY) Opus.INFINITY false 0
          Opus.initialSearchSt 1).1 := by
  have h3 := alphaBeta_checkmate_score zeroEnv Color.white 3 mateGS (-Opus.INFINITY)
    Opus.INFINITY false 0 1 Opus.initialSearchSt rfl (by decide) (by decide)
  have h1 := alphaBeta_checkmate_score zeroEnv Color.white 1 mateGS (-Opus.INFINITY)
    Opus.INFINITY false 0 1 Opus.initialSearchSt rfl (by decide) (by decide)
  rw [h3, h1]
  norm_num [Opus.MATE_SCORE]

theorem c6_mate_score_uses_remaining_depth_witness :
    Opus.isCheckmate mateGS = true ∧
      (Opus.alphaBeta zeroEnv Color.white 2 mateGS (-Opus.INFINITY) Opus.INFINITY false 0
          Opus.initialSearchSt 1).1 =
        (if false then -Opus.MATE_SCORE + ((2 : Nat) : Rat)
         else Opus.MATE_SCORE - ((2 : Nat) : Rat)) :=
  ⟨by decide,
    c6_mate_score_uses_remaining_depth zeroEnv Color.white 2 mateGS (-Opus.INFINITY)
      Opus.INFINITY false 0 1 Opus.initialSearchSt rfl (by decide) (by decide)⟩

/-- C9 amended: there is no corrupt-position refusal: when a color has no
king on the board, findKing returns null and isInCheck silently reports
no check, and search proceeds as on any other position. -/
theorem c9_missing_king_no_refusal :
    ∀ (board : Board) (c : Color), MoveValidation.findKing board c = none →
      MoveValidation.isInCheck board c = false := by
  intro board c h
  simp [MoveValidation.isInCheck, h]

/-- A position with no white king at all: a lone white pawn about to
promote, and the black king far away. -/
def kinglessGS : GameState :=
  { createGameState with
      board := placePiece (placePiece emptyBoard 0 6 PieceType.pawn Color.white)
        7 7 PieceType.king Color.black }

/-- C9 counterexample: on a position whose white king is missing, check
detection silently reports no check and the Opus move selection returns an
ordinary move (the single pawn push) instead of refusing to search. -/
theorem c9_search_proceeds_without_king :
    MoveValidation.findKing kinglessGS.board Color.white = none ∧
      MoveValidation.isInCheck kinglessGS.board Color.white = false ∧
      Opus.makeMove zeroEnv kinglessGS Color.white Opus.initialSearchSt =
        some ⟨⟨0, 6⟩, ⟨0, 7⟩⟩ := by
  refine ⟨by decide, by decide, by decide⟩

theorem c9_missing_king_no_refusal_witness :
    MoveValidation.isInCheck kinglessGS.board Color.white = false :=
  c9_missing_king_no_refusal kinglessGS.board Color.white (by decide)

/-- At positive depth with the maximizing flag set, the Grok minimax
returns a non-null move whenever the bot color has a legal move. -/
theorem grok_minimax_root_some (board : Board) (gs : GameState) (d : Nat)
    (alpha beta : Int) (c : Color)
    (hne : Grok.getLegalMoves board c gs ≠ []) :
    ∃ m, (Grok.minimax board gs (d + 1) alpha beta true c).move = some m := by
  simp only [Grok.minimax, if_true]
  cases hmv : Grok.getLegalMoves board c gs with
  | nil => exact absurd hmv hne
  | cons m0 rest => exact ⟨_, rfl⟩

/-- C4: the move-selection entry points return null exactly on positions
where the given color has no legal move, for every clock behavior (Opus)
and every random opening pick (Grok): the iterative-deepening best move is
seeded with the first legal move before any search depth completes, so an
expiring deadline can never produce a null result. -/
theorem c4_selectMove_null_iff_no_legal_moves :
    (∀ (env : Opus.Env) (gs : GameState) (c : Color) (σ : Opus.SearchSt),
      (Opus.generateLegalMoves gs c = [] → Opus.makeMove env gs c σ = none) ∧
      (Opus.generateLegalMoves gs c ≠ [] →
        ∃ m, Opus.makeMove env gs c σ = some m)) ∧
    (∀ (gs : GameState) (c : Color) (pick : Bool),
      (Grok.getLegalMoves gs.board c gs ≠ [] → ∃ m, Grok.makeMove gs c pick = some m) ∧
      (Grok.makeMove gs c pick = none → Grok.getLegalMoves gs.board c gs = [])) := by
  constructor
  · intro env gs c σ
    constructor
    · intro h0
      simp [Opus.makeMove, Opus.getOpeningBookMove, h0]
    · intro hne
      simp only [Opus.makeMove, Opus.getOpeningBookMove]
      cases hmv : Opus.generateLegalMoves gs c with
      | nil => exact absurd hmv hne
      | cons m0 rest =>
        cases hr : rest.isEmpty
        · cases hf : rest.find? (fun move => Opus.isCheckmate (Opus.applyMove gs move))
          all_goals
            cases hf0 : Opus.isCheckmate (Opus.applyMove gs m0)
          all_goals simp [hr, List.find?, hf0, hf]
        · simp [hr]
  · intro gs c pick
    have hex : Grok.getLegalMoves gs.board c gs ≠ [] →
        ∃ m, Grok.makeMove gs c pick = some m := by
      intro hne
      simp only [Grok.makeMove]
      cases hop : Grok.openingMove gs c pick with
      | some m => exact ⟨m, rfl⟩
      | none =>
        cases hlen : decide (gs.moveHistory.length < 10)
        · have : (if gs.moveHistory.length < 10 then 3 else 4) = 4 := by
            simp at hlen
            simp [hlen]
          rw [this]
          exact grok_minimax_root_some gs.board gs 3 (-Grok.jsInfinity) Grok.jsInfinity c hne
        · have : (if gs.moveHistory.length < 10 then 3 else 4) = 3 := by
            simp at hlen
            simp [hlen]
          rw [this]
          exact grok_minimax_root_some gs.board gs 2 (-Grok.jsInfinity) Grok.jsInfinity c hne
    refine ⟨hex, ?_⟩
    intro hnone
    by_contra hne
    obtain ⟨m, hm⟩ := hex hne
    rw [hm] at hnone
    cases hnone

/-- A position with no pieces at all, so that neither side has any legal move. -/
def noPiecesGS : GameState := { createGameState with board := emptyBoard }

theorem c4_selectMove_null_iff_no_legal_moves_witness :
    Opus.generateLegalMoves noPiecesGS Color.white = [] ∧
    Opus.makeMove zeroEnv noPiecesGS Color.white Opus.initialSearchSt = none ∧
    Grok.getLegalMoves kingsOnlyGS.board Color.white kingsOnlyGS ≠ [] ∧
    (Grok.makeMove kingsOnlyGS Color.white false).isSome = true := by
  refine ⟨by decide, ?_, by decide, ?_⟩
  · exact (c4_selectMove_null_iff_no_legal_moves.1 zeroEnv noPiecesGS Color.white
      Opus.initialSearchSt).1 (by decide)
  · obtain ⟨m, hm⟩ := (c4_selectMove_null_iff_no_legal_moves.2 kingsOnlyGS Color.white
      false).1 (by decide)
    rw [hm]
    rfl
